import Mathlib

/-!
# Verification of the automata collection/publication resolution core

This development embeds the configuration-resolution core of the automata
repository: the schemas and file-reading glue of `automata/_discover/_io.py`,
the previous-publication chaining of `automata/_discover/_discover.py`, and —
because the `dictconfig` resolution engine and the smart-date mini-language are
external to the repository's source tree — a model of the resolution engine
built from the specification (schema validation and defaulting, `${...}`
interpolation with lazy self-reference and cycle detection, and relative
date expressions).
-/

namespace Automata

set_option maxRecDepth 20000

set_option maxHeartbeats 2000000

/-- Proleptic Gregorian calendar date, as produced by the YAML loader for
date scalars. -/
structure PDate where
  year : Int
  month : Int
  day : Int
deriving DecidableEq, Repr

/-- A date with a time of day, as produced by the YAML loader for datetime
scalars. -/
structure PDateTime where
  date : PDate
  hour : Int
  minute : Int
  second : Int
deriving DecidableEq, Repr

/-- `Modelled from the spec:` days-from-civil conversion used to give relative
date expressions exact timedelta semantics (the smart-date engine is not part
of the repository's source tree). Returns the number of days since
1970-01-01. -/
def daysFromCivil (d : PDate) : Int :=
  let y : Int := if d.month ≤ 2 then d.year - 1 else d.year
  let era : Int := Int.fdiv y 400
  let yoe : Int := y - era * 400
  let mp : Int := Int.emod (d.month + 9) 12
  let doy : Int := Int.fdiv (153 * mp + 2) 5 + d.day - 1
  let doe : Int := yoe * 365 + Int.fdiv yoe 4 - Int.fdiv yoe 100 + doy
  era * 146097 + doe - 719468

/-- `Modelled from the spec:` inverse of `daysFromCivil`. -/
def civilFromDays (z0 : Int) : PDate :=
  let z : Int := z0 + 719468
  let era : Int := Int.fdiv z 146097
  let doe : Int := z - era * 146097
  let yoe : Int := Int.fdiv (doe - Int.fdiv doe 1460 + Int.fdiv doe 36524 - Int.fdiv doe 146096) 365
  let y : Int := yoe + era * 400
  let doy : Int := doe - (365 * yoe + Int.fdiv yoe 4 - Int.fdiv yoe 100)
  let mp : Int := Int.fdiv (5 * doy + 2) 153
  let d : Int := doy - Int.fdiv (153 * mp + 2) 5 + 1
  let m : Int := if mp < 10 then mp + 3 else mp - 9
  ⟨if m ≤ 2 then y + 1 else y, m, d⟩

/-- Shift a date by a (possibly negative) number of days. -/
def dateAddDays (d : PDate) (n : Int) : PDate :=
  civilFromDays (daysFromCivil d + n)

/-- Shift a datetime by a (possibly negative) number of days; the time of day
is unchanged. -/
def dtAddDays (dt : PDateTime) (n : Int) : PDateTime :=
  { dt with date := dateAddDays dt.date n }

/-- Shift a datetime by a (possibly negative) number of hours. -/
def dtAddHours (dt : PDateTime) (n : Int) : PDateTime :=
  let total : Int := (daysFromCivil dt.date) * 24 + dt.hour + n
  let days : Int := Int.fdiv total 24
  let hour : Int := Int.emod total 24
  { date := civilFromDays days, hour := hour, minute := dt.minute, second := dt.second }

/-- A value of a YAML document after loading: the raw documents fed to the
resolution engine and the resolved documents it returns are both of this
shape. Mappings are association lists in document order. -/
inductive Value where
  | vnull : Value
  | vbool : Bool → Value
  | vint : Int → Value
  | vstr : String → Value
  | vdate : PDate → Value
  | vdatetime : PDateTime → Value
  | vlist : List Value → Value
  | vdict : List (String × Value) → Value
deriving Repr

/-- First-match association-list lookup, the model of Python dict indexing
(document mappings never repeat keys). -/
def dlookup (k : String) : List (String × Value) → Option Value
  | [] => none
  | (k', v) :: rest => if k' = k then some v else dlookup k rest

/-- Replace the value at a key in place if present, else append — the model of
Python dict item assignment. -/
def dset (k : String) (v : Value) : List (String × Value) → List (String × Value)
  | [] => [(k, v)]
  | (k', v') :: rest => if k' = k then (k, v) :: rest else (k', v') :: dset k v rest

/-- Keys of an association list. -/
def dkeys (kvs : List (String × Value)) : List String :=
  kvs.map Prod.fst

/-- Look up a key of a dict value, with a fallback for missing keys or
non-dict values. -/
def getValD (v : Value) (k : String) (d : Value) : Value :=
  match v with
  | .vdict kvs => (dlookup k kvs).getD d
  | _ => d

/-- The closed set of schema-node kinds of the resolution engine's schema
language (`type` in a dictconfig schema dictionary). -/
inductive SKind where
  | sstring
  | sinteger
  | sboolean
  | sdate
  | sdatetime
  | sdict
  | slist
  | sany
deriving DecidableEq, Repr

/-- `Modelled from the spec:` a schema node of the resolution engine (the
dictconfig schema model is external to the repository's source tree). The
fields are, in order: the kind, `nullable`, the default (present iff the node
is optional; an explicit `default: null` is `some .vnull`), `required_keys`,
`optional_keys`, `extra_keys_schema` and `element_schema`. -/
inductive Schema where
  | mk : SKind → Bool → Option Value → List (String × Schema) →
      List (String × Schema) → Option Schema → Option Schema → Schema

/-- The kind of a schema node. -/
def Schema.kind : Schema → SKind
  | .mk k _ _ _ _ _ _ => k

/-- Whether the node accepts an explicit null. -/
def Schema.nullable : Schema → Bool
  | .mk _ nl _ _ _ _ _ => nl

/-- The node's default value, when it has one. -/
def Schema.defaultVal : Schema → Option Value
  | .mk _ _ d _ _ _ _ => d

/-- The required keys of a dict node. -/
def Schema.requiredKeys : Schema → List (String × Schema)
  | .mk _ _ _ req _ _ _ => req

/-- The optional keys of a dict node. -/
def Schema.optionalKeys : Schema → List (String × Schema)
  | .mk _ _ _ _ opt _ _ => opt

/-- The schema applied to undeclared keys of a dict node, when present. -/
def Schema.extraKeys : Schema → Option Schema
  | .mk _ _ _ _ _ ex _ => ex

/-- The schema applied to the elements of a list node. -/
def Schema.elementSchema : Schema → Option Schema
  | .mk _ _ _ _ _ _ el => el

/-- The schema node that accepts anything and passes it through. -/
def anySchema : Schema :=
  .mk .sany false none [] [] none none

/-- First-match lookup in a list of named schema nodes. -/
def slookup (k : String) : List (String × Schema) → Option Schema
  | [] => none
  | (k', s) :: rest => if k' = k then some s else slookup k rest

/-- `Modelled from the spec:` the error taxonomy local to the resolution
engine. All of these are caught at the file-reading boundary. -/
inductive ResolutionError where
  | missingKey : String → ResolutionError
  | unknownKey : String → ResolutionError
  | typeMismatch : String → ResolutionError
  | unresolvable : List String → ResolutionError
  | cyclic : List String → ResolutionError
  | validation : String → ResolutionError
  | invalidSchema : String → ResolutionError
  | depthExhausted : ResolutionError
deriving DecidableEq, Repr

/-- Printable name of a schema kind, used in error messages. -/
def kindName : SKind → String
  | .sstring => "string"
  | .sinteger => "integer"
  | .sboolean => "boolean"
  | .sdate => "date"
  | .sdatetime => "datetime"
  | .sdict => "dict"
  | .slist => "list"
  | .sany => "any"

/-- The model of `str(exc)` for resolution-engine errors. -/
def errStr : ResolutionError → String
  | .missingKey k => "missing required key: " ++ k
  | .unknownKey k => "unknown key: " ++ k
  | .typeMismatch t => "expected a value of type: " ++ t
  | .unresolvable p => "cannot resolve reference: " ++ String.intercalate "." p
  | .cyclic p => "cyclic reference: " ++ String.intercalate "." p
  | .validation m => "validation error: " ++ m
  | .invalidSchema m => "invalid schema: " ++ m
  | .depthExhausted => "maximum resolution depth exhausted"

/-- Split a character list on a separator character (components may be
empty). Structural replacement for the string split of the Python model. -/
def splitChar (sep : Char) : List Char → List (List Char)
  | [] => [[]]
  | c :: cs =>
    match splitChar sep cs with
    | [] => [[]]
    | w :: ws => if c = sep then [] :: w :: ws else (c :: w) :: ws

/-- Drop leading spaces of a character list. -/
def dropSp : List Char → List Char
  | [] => []
  | c :: cs => if c = ' ' then dropSp cs else c :: cs

/-- Strip spaces from both ends of a string, the model of Python
`str.strip` on the whitespace appearing in these documents. -/
def strTrim (s : String) : String :=
  String.mk ((dropSp ((dropSp s.data.reverse).reverse)))

/-- Numeric value of a decimal digit. -/
def digVal (c : Char) : Option Nat :=
  if '0' ≤ c ∧ c ≤ '9' then some (c.toNat - '0'.toNat) else none

/-- Accumulate decimal digits into a natural number. -/
def digitsToNatAux (acc : Nat) : List Char → Option Nat
  | [] => some acc
  | c :: cs =>
    match digVal c with
    | some d => digitsToNatAux (acc * 10 + d) cs
    | none => none

/-- Parse a non-empty all-digit character list. -/
def digitsToNat : List Char → Option Nat
  | [] => none
  | cs => digitsToNatAux 0 cs

/-- Parse a decimal natural number. -/
def strToNatQ (s : String) : Option Nat :=
  digitsToNat s.data

/-- Parse a decimal integer with an optional leading minus sign, the model of
Python `int()` on relative-date offsets. -/
def strToIntQ (s : String) : Option Int :=
  match s.data with
  | '-' :: cs => (digitsToNat cs).map (fun n => -(n : Int))
  | cs => (digitsToNat cs).map (fun n => (n : Int))

/-- Concatenate strings with a separator between them. -/
def joinWith (sep : String) : List String → String
  | [] => ""
  | [s] => s
  | s :: rest => s ++ sep ++ joinWith sep rest

/-- Concatenate a list of strings. -/
def concatAll : List String → String
  | [] => ""
  | [s] => s
  | s :: rest => s ++ concatAll rest

/-- A piece of an interpolated string: literal text or a `${...}` reference
holding a parsed dotted path. -/
inductive Seg where
  | lit : String → Seg
  | ref : List String → Seg
deriving DecidableEq, Repr

/-- Parse a dotted path such as `this.metadata.due`, trimming whitespace
around the whole expression and around each component. -/
def parsePath (s : String) : List String :=
  (splitChar '.' (strTrim s).data).map (fun c => strTrim (String.mk c))

/-- The pending literal segment accumulated by the scanner (characters held
in reverse order), emitted when non-empty. -/
def emitLit (acc : List Char) : List Seg :=
  if acc.isEmpty then [] else [.lit (String.mk acc.reverse)]

/-- `Modelled from the spec:` one-pass scanner splitting a string scalar into
literal text and `${...}` placeholder segments. The first argument is true
while inside a placeholder; the second accumulates the current segment in
reverse. An unclosed placeholder is an error. -/
def scanGo : Bool → List Char → List Char → Except ResolutionError (List Seg)
  | true, _, [] => .error (.validation "unclosed placeholder")
  | false, acc, [] => .ok (emitLit acc)
  | true, acc, c :: cs =>
    if c = '}' then
      match scanGo false [] cs with
      | .error e => .error e
      | .ok segs => .ok (Seg.ref (parsePath (String.mk acc.reverse)) :: segs)
    else scanGo true (c :: acc) cs
  | false, acc, c :: cs =>
    match cs with
    | [] => .ok (emitLit (c :: acc))
    | c2 :: cs2 =>
      if c = '$' ∧ c2 = '{' then
        (match scanGo true [] cs2 with
         | .error e => .error e
         | .ok segs => .ok (emitLit acc ++ segs))
      else scanGo false (c :: acc) (c2 :: cs2)

/-- Scan a whole string for placeholders. -/
def scanInterp (s : String) : Except ResolutionError (List Seg) :=
  scanGo false [] s.toList

/-- True when a character list contains no `${` opener. -/
def noInterpC : List Char → Bool
  | [] => true
  | c :: cs =>
    match cs with
    | [] => true
    | c2 :: cs2 => if c = '$' ∧ c2 = '{' then false else noInterpC (c2 :: cs2)

/-- True when a string contains no `${` opener (it is pure literal text). -/
def noInterpStr (s : String) : Bool :=
  noInterpC s.toList

/-- Split a character list at the first closing brace, returning the content
before it and the remainder after it. -/
def splitRef : List Char → Option (List Char × List Char)
  | [] => none
  | c :: rest =>
    if c = '}' then some ([], rest)
    else match splitRef rest with
      | none => none
      | some (content, rem) => some (c :: content, rem)

/-- Recognize a string that is exactly one `${...}` placeholder (after
trimming) and return its parsed dotted path. -/
def extractRef (s : String) : Option (List String) :=
  match (strTrim s).data with
  | '$' :: '{' :: rest =>
    (match splitRef rest with
     | some (content, []) => some (parsePath (String.mk content))
     | _ => none)
  | _ => none

/-- Two-digit zero padding for date rendering. -/
def pad2 (n : Int) : String :=
  if n < 10 then "0" ++ toString n else toString n

/-- The model of Python `str()` on resolved values, used when a placeholder is
embedded inside a larger string. Container renderings are schematic; embedded
interpolation of containers is not exercised by the repository. -/
def toDisplay : Value → String
  | .vnull => "None"
  | .vbool true => "True"
  | .vbool false => "False"
  | .vint n => toString n
  | .vstr s => s
  | .vdate d => toString d.year ++ "-" ++ pad2 d.month ++ "-" ++ pad2 d.day
  | .vdatetime dt =>
    toString dt.date.year ++ "-" ++ pad2 dt.date.month ++ "-" ++ pad2 dt.date.day ++ " " ++
      pad2 dt.hour ++ ":" ++ pad2 dt.minute ++ ":" ++ pad2 dt.second
  | .vlist _ => "[...]"
  | .vdict _ => "{...}"

/-- Units of the relative-date grammar. -/
inductive SUnit where
  | hours
  | days
deriving DecidableEq, Repr

/-- Parse a unit token of the relative-date grammar. -/
def parseUnit : String → Option SUnit
  | "hour" => some .hours
  | "hours" => some .hours
  | "day" => some .days
  | "days" => some .days
  | _ => none

/-- Parse a direction token of the relative-date grammar; `true` is after. -/
def parseDir : String → Option Bool
  | "after" => some true
  | "before" => some false
  | _ => none

/-- `Modelled from the spec:` apply a relative-date offset to the referenced
value. Hour offsets require a datetime reference; the result type matches the
reference's type. -/
def applyDelta (u : SUnit) (after : Bool) (n : Int) (v : Value) : Except ResolutionError Value :=
  let m : Int := if after then n else -n
  match u, v with
  | .hours, .vdatetime dt => .ok (.vdatetime (dtAddHours dt m))
  | .hours, .vdate _ => .error (.validation "hour offsets require a datetime reference")
  | .days, .vdatetime dt => .ok (.vdatetime (dtAddDays dt m))
  | .days, .vdate d => .ok (.vdate (dateAddDays d m))
  | _, _ => .error (.validation "relative date reference is not a date or datetime")

/-- Check (and where specified, coerce) a fully interpolated value against a
scalar kind: a date is accepted for a datetime field at midnight. -/
def checkKind : SKind → Value → Except ResolutionError Value
  | .sstring, .vstr s => .ok (.vstr s)
  | .sinteger, .vint n => .ok (.vint n)
  | .sboolean, .vbool b => .ok (.vbool b)
  | .sdate, .vdate d => .ok (.vdate d)
  | .sdatetime, .vdatetime dt => .ok (.vdatetime dt)
  | .sdatetime, .vdate d => .ok (.vdatetime ⟨d, 0, 0, 0⟩)
  | .sany, v => .ok v
  | k, _ => .error (.typeMismatch (kindName k))

/-- The type of the resolution callback threaded through the engine's
single-level step: resolve a raw value against a schema under a set of
paths currently being resolved. -/
def ResCb : Type :=
  List (List String) → Value → Schema → Except ResolutionError Value

/-- The type of the reference-evaluation callback used by interpolation and
smart dates. -/
def RefCb : Type :=
  List (List String) → List String → Except ResolutionError Value

/-- Map a fallible function over a list, failing fast. -/
def mapExcept {α β : Type} (f : α → Except ResolutionError β) : List α → Except ResolutionError (List β)
  | [] => .ok []
  | x :: xs =>
    match f x with
    | .error e => .error e
    | .ok y =>
      match mapExcept f xs with
      | .error e => .error e
      | .ok ys => .ok (y :: ys)

/-- Navigate into an already-resolved value (external variable bundles and
defaults) along the remaining dotted path. -/
def navPlain (orig : List String) : Value → List String → Except ResolutionError Value
  | v, [] => .ok v
  | .vdict kvs, k :: rest =>
    (match dlookup k kvs with
     | some v => navPlain orig v rest
     | none => .error (.unresolvable orig))
  | .vlist xs, k :: rest =>
    (match strToNatQ k with
     | some i =>
       match xs.get? i with
       | some v => navPlain orig v rest
       | none => .error (.unresolvable orig)
     | none => .error (.unresolvable orig))
  | _, _ :: _ => .error (.unresolvable orig)

/-- `Modelled from the spec:` navigate the raw document along a `this.`/
`self.` reference path, pairing each step with its schema node, and resolve
the referenced subtree on arrival. A missing optional key with a default
yields the default (already final, so navigated plainly). -/
def navSelf (res : ResCb) (vis : List (List String)) (orig : List String) :
    Value → Schema → List String → Except ResolutionError Value
  | raw, schema, [] => res vis raw schema
  | raw, .mk .sdict _ _ req opt extra _, k :: rest =>
    (match raw with
     | .vdict kvs =>
       (match slookup k req with
        | some sch =>
          (match dlookup k kvs with
           | some v => navSelf res vis orig v sch rest
           | none => .error (.unresolvable orig))
        | none =>
          match slookup k opt with
          | some sch =>
            (match dlookup k kvs with
             | some v => navSelf res vis orig v sch rest
             | none =>
               match sch.defaultVal with
               | some d => navPlain orig d rest
               | none => .error (.unresolvable orig))
          | none =>
            match extra with
            | some sch =>
              (match dlookup k kvs with
               | some v => navSelf res vis orig v sch rest
               | none => .error (.unresolvable orig))
            | none => .error (.unresolvable orig))
     | _ => .error (.unresolvable orig))
  | raw, .mk .sany _ _ _ _ _ _, k :: rest =>
    (match raw with
     | .vdict kvs =>
       (match dlookup k kvs with
        | some v => navSelf res vis orig v anySchema rest
        | none => .error (.unresolvable orig))
     | .vlist xs =>
       (match strToNatQ k with
        | some i =>
          match xs.get? i with
          | some v => navSelf res vis orig v anySchema rest
          | none => .error (.unresolvable orig)
        | none => .error (.unresolvable orig))
     | _ => .error (.unresolvable orig))
  | raw, .mk .slist _ _ _ _ _ elem, k :: rest =>
    (match raw with
     | .vlist xs =>
       (match strToNatQ k with
        | some i =>
          match xs.get? i with
          | some v => navSelf res vis orig v (elem.getD anySchema) rest
          | none => .error (.unresolvable orig)
        | none => .error (.unresolvable orig))
     | _ => .error (.unresolvable orig))
  | _, _, _ :: _ => .error (.unresolvable orig)

/-- `Modelled from the spec:` evaluate a dotted reference path against the
variable environment: `this`/`self` re-enters the raw document (with cycle
detection on the set of paths currently being resolved); any other namespace
is looked up among the already-resolved external variable bundles. -/
def refEval (res : ResCb) (env : List (String × Value)) (root : Value) (rootSchema : Schema)
    (vis : List (List String)) (path : List String) : Except ResolutionError Value :=
  match path with
  | [] => .error (.unresolvable path)
  | ns :: rest =>
    if ns = "this" ∨ ns = "self" then
      if path ∈ vis then .error (.cyclic path)
      else navSelf res (path :: vis) path root rootSchema rest
    else
      match dlookup ns env with
      | some v => navPlain path v rest
      | none => .error (.unresolvable path)

/-- Render one segment of an embedded interpolation to text. -/
def segValue (refEv : RefCb) (vis : List (List String)) : Seg → Except ResolutionError String
  | .lit t => .ok t
  | .ref p =>
    match refEv vis p with
    | .error e => .error e
    | .ok v => .ok (toDisplay v)

/-- `Modelled from the spec:` interpolate a string scalar. A placeholder
spanning the whole string is replaced by the referenced value with its native
type preserved; embedded placeholders are replaced by the string form of the
referenced value. -/
def interpValue (refEv : RefCb) (vis : List (List String)) (s : String) : Except ResolutionError Value :=
  match scanInterp s with
  | .error e => .error e
  | .ok [Seg.ref p] => refEv vis p
  | .ok segs =>
    match mapExcept (segValue refEv vis) segs with
    | .error e => .error e
    | .ok parts => .ok (.vstr (concatAll parts))

/-- Evaluate a date/datetime string that is not in relative form: it must be
a whole-string reference to a date or datetime. -/
def smartAbsolute (refEv : RefCb) (vis : List (List String)) (kind : SKind) (s : String) :
    Except ResolutionError Value :=
  match extractRef s with
  | some p =>
    (match refEv vis p with
     | .error e => .error e
     | .ok v => checkKind kind v)
  | none => .error (.typeMismatch (kindName kind))

/-- `Modelled from the spec:` evaluate a string supplied for a date/datetime
field against the smart-date grammar
`INTEGER UNIT (before|after) ${dotted.path}`. The integer must be
non-negative; otherwise the string must be a whole-string reference. -/
def smartDateEval (refEv : RefCb) (vis : List (List String)) (kind : SKind) (s : String) :
    Except ResolutionError Value :=
  match ((splitChar ' ' s.data).filter (fun w => ¬ w.isEmpty)).map String.mk with
  | nStr :: uStr :: dStr :: rest =>
    (match strToIntQ nStr, parseUnit uStr, parseDir dStr with
     | some n, some u, some dir =>
       if n < 0 then .error (.validation "relative date offset must be non-negative")
       else
         match extractRef (joinWith " " rest) with
         | some p =>
           (match refEv vis p with
            | .error e => .error e
            | .ok v => applyDelta u dir n v)
         | none => .error (.validation "relative date reference must be of the form ${...}")
     | _, _, _ => smartAbsolute refEv vis kind s)
  | _ => smartAbsolute refEv vis kind s

/-- Resolve the required keys of a dict node in schema order: a key absent
from the raw mapping is a `missingKey` error, a present one is resolved
against its schema node. -/
def resolveReq (res : ResCb) (vis : List (List String)) (kvs : List (String × Value)) :
    List (String × Schema) → Except ResolutionError (List (String × Value))
  | [] => .ok []
  | (k, sch) :: rest =>
    match dlookup k kvs with
    | none => .error (.missingKey k)
    | some v =>
      match res vis v sch with
      | .error e => .error e
      | .ok rv =>
        match resolveReq res vis kvs rest with
        | .error e => .error e
        | .ok out => .ok ((k, rv) :: out)

/-- Resolve the optional keys of a dict node in schema order: a present key is
resolved, an absent one is filled from its default when it has one and
omitted otherwise. -/
def resolveOpt (res : ResCb) (vis : List (List String)) (kvs : List (String × Value)) :
    List (String × Schema) → Except ResolutionError (List (String × Value))
  | [] => .ok []
  | (k, sch) :: rest =>
    match dlookup k kvs with
    | some v =>
      (match res vis v sch with
       | .error e => .error e
       | .ok rv =>
         match resolveOpt res vis kvs rest with
         | .error e => .error e
         | .ok out => .ok ((k, rv) :: out))
    | none =>
      match sch.defaultVal with
      | some d =>
        (match resolveOpt res vis kvs rest with
         | .error e => .error e
         | .ok out => .ok ((k, d) :: out))
      | none => resolveOpt res vis kvs rest

/-- Resolve the raw keys not declared as required or optional, in document
order: with no `extra_keys_schema` any such key is an `unknownKey` error,
otherwise each is resolved against the extra-keys schema. -/
def resolveExtra (res : ResCb) (vis : List (List String)) (extra : Option Schema)
    (covered : List String) : List (String × Value) → Except ResolutionError (List (String × Value))
  | [] => .ok []
  | (k, v) :: rest =>
    if k ∈ covered then resolveExtra res vis extra covered rest
    else
      match extra with
      | none => .error (.unknownKey k)
      | some sch =>
        match res vis v sch with
        | .error e => .error e
        | .ok rv =>
          match resolveExtra res vis extra covered rest with
          | .error e => .error e
          | .ok out => .ok ((k, rv) :: out)

/-- Resolve a scalar-kinded node: nulls need `nullable`; strings supplied for
date/datetime fields go through the smart-date grammar, other strings through
interpolation followed by the kind check; non-string values are checked
directly. -/
def resolveScalar (refEv : RefCb) (vis : List (List String)) (kind : SKind) (nullable : Bool)
    (raw : Value) : Except ResolutionError Value :=
  match raw with
  | .vnull => if nullable then .ok .vnull else .error (.typeMismatch (kindName kind))
  | .vstr s =>
    (match kind with
     | .sdate => smartDateEval refEv vis kind s
     | .sdatetime => smartDateEval refEv vis kind s
     | _ =>
       match interpValue refEv vis s with
       | .error e => .error e
       | .ok v => checkKind kind v)
  | v => checkKind kind v

/-- `Modelled from the spec:` one level of resolution of a raw value against a
schema node. All recursion into sub-values goes through the callback `res`;
`any` nodes pass their value through unchanged (the engine's documented
choice for free-form metadata). An empty raw mapping is accepted for a list
node (the permissive publication spec supplies `{}` for a list field and is
accepted by the engine). -/
def resolveStep (res : ResCb) (env : List (String × Value)) (root : Value) (rootSchema : Schema)
    (vis : List (List String)) (raw : Value) (schema : Schema) : Except ResolutionError Value :=
  match schema with
  | .mk .sany _ _ _ _ _ _ => .ok raw
  | .mk .sdict nullable _ req opt extra _ =>
    (match raw with
     | .vnull => if nullable then .ok .vnull else .error (.typeMismatch "dict")
     | .vdict kvs =>
       (match resolveReq res vis kvs req with
        | .error e => .error e
        | .ok rq =>
          match resolveOpt res vis kvs opt with
          | .error e => .error e
          | .ok op =>
            match resolveExtra res vis extra (req.map Prod.fst ++ opt.map Prod.fst) kvs with
            | .error e => .error e
            | .ok ex => .ok (.vdict (rq ++ op ++ ex)))
     | _ => .error (.typeMismatch "dict"))
  | .mk .slist nullable _ _ _ _ elem =>
    (match raw with
     | .vnull => if nullable then .ok .vnull else .error (.typeMismatch "list")
     | .vlist xs =>
       (match mapExcept (fun v => res vis v (elem.getD anySchema)) xs with
        | .error e => .error e
        | .ok ys => .ok (.vlist ys))
     | .vdict [] => .ok (.vlist [])
     | _ => .error (.typeMismatch "list"))
  | .mk kind nullable _ _ _ _ _ =>
    resolveScalar (fun vis' p => refEval res env root rootSchema vis' p) vis kind nullable raw

/-- The context of one resolution run: the external variable bundles and the
raw root document with its schema (the target of `this.` references). -/
structure RCtx where
  env : List (String × Value)
  root : Value
  rootSchema : Schema

/-- `Modelled from the spec:` the resolution engine. The fuel bounds the
nesting depth and the reference-chain length (sibling iteration is
structural and consumes none); the engine detects reference cycles, so any
document of reasonable depth resolves within the fixed fuel below. -/
def resolve : Nat → RCtx → List (List String) → Value → Schema → Except ResolutionError Value
  | 0, _, _, _, _ => .error .depthExhausted
  | fuel + 1, ctx, vis, raw, schema =>
    resolveStep (fun vis' v sch => resolve fuel ctx vis' v sch)
      ctx.env ctx.root ctx.rootSchema vis raw schema

/-- Depth budget of a resolution run. The fuel bounds nesting depth and
reference-chain length only (document width consumes none), so this covers
any realistic document. -/
def engineFuel : Nat := 100

/-- The model of `dictconfig.resolve(raw, schema, external_variables=env)`. -/
def dcResolve (raw : Value) (schema : Schema) (env : List (String × Value)) :
    Except ResolutionError Value :=
  resolve engineFuel ⟨env, raw, schema⟩ [] raw schema

/-- The field names a dictconfig schema dictionary may carry; any other field
makes the schema invalid. -/
def schemaFields : List String :=
  ["type", "nullable", "default", "required_keys", "optional_keys",
   "extra_keys_schema", "element_schema"]

/-- Parse a schema `type` field. -/
def parseSKind : String → Option SKind
  | "string" => some .sstring
  | "integer" => some .sinteger
  | "boolean" => some .sboolean
  | "date" => some .sdate
  | "datetime" => some .sdatetime
  | "dict" => some .sdict
  | "list" => some .slist
  | "any" => some .sany
  | _ => none

/-- Reject unknown fields of a schema dictionary. -/
def checkFields : List (String × Value) → Except ResolutionError Unit
  | [] => .ok ()
  | (k, _) :: rest =>
    if k ∈ schemaFields then checkFields rest
    else .error (.invalidSchema ("unknown schema field: " ++ k))

/-- Read an optional boolean field of a schema dictionary. -/
def parseBoolField (kvs : List (String × Value)) (k : String) (d : Bool) :
    Except ResolutionError Bool :=
  match dlookup k kvs with
  | none => .ok d
  | some (.vbool b) => .ok b
  | some _ => .error (.invalidSchema (k ++ " must be a boolean"))

/-- Read a `required_keys`/`optional_keys` mapping of a schema dictionary,
parsing each value as a schema node. -/
def parseKeysField (ps : Value → Except ResolutionError Schema) (kvs : List (String × Value))
    (k : String) : Except ResolutionError (List (String × Schema)) :=
  match dlookup k kvs with
  | none => .ok []
  | some (.vdict entries) =>
    mapExcept (fun (p : String × Value) =>
      match ps p.2 with
      | .error e => .error e
      | .ok s => .ok (p.1, s)) entries
  | some _ => .error (.invalidSchema (k ++ " must be a mapping"))

/-- Read an optional sub-schema field of a schema dictionary. -/
def parseSubField (ps : Value → Except ResolutionError Schema) (kvs : List (String × Value))
    (k : String) : Except ResolutionError (Option Schema) :=
  match dlookup k kvs with
  | none => .ok none
  | some sv =>
    match ps sv with
    | .error e => .error e
    | .ok s => .ok (some s)

/-- `Modelled from the spec:` one level of parsing a schema dictionary into a
schema node (the model of dictconfig's schema validation; the engine is
external to the repository's source tree). -/
def parseSchemaStep (ps : Value → Except ResolutionError Schema) : Value → Except ResolutionError Schema
  | .vdict kvs => do
    let _ ← checkFields kvs
    let kind ←
      match dlookup "type" kvs with
      | some (.vstr t) =>
        (match parseSKind t with
         | some k => Except.ok k
         | none => .error (.invalidSchema ("unknown type: " ++ t)))
      | some _ => .error (.invalidSchema "the type field must be a string")
      | none => .error (.invalidSchema "missing schema field: type")
    let nl ← parseBoolField kvs "nullable" false
    let req ← parseKeysField ps kvs "required_keys"
    let opt ← parseKeysField ps kvs "optional_keys"
    let ex ← parseSubField ps kvs "extra_keys_schema"
    let el ← parseSubField ps kvs "element_schema"
    .ok (.mk kind nl (dlookup "default" kvs) req opt ex el)
  | _ => .error (.invalidSchema "a schema must be a mapping")

/-- `Modelled from the spec:` parse a schema dictionary; the fuel bounds the
nesting depth. -/
def parseSchema : Nat → Value → Except ResolutionError Schema
  | 0, _ => .error .depthExhausted
  | fuel + 1, v => parseSchemaStep (parseSchema fuel) v

/-- The model of `dictconfig.validate_schema`, also returning the parsed
node. -/
def validateSchemaValue (v : Value) : Except ResolutionError Schema :=
  parseSchema engineFuel v

/-- Shorthand: a plain string schema node. -/
def strSchema : Schema :=
  .mk .sstring false none [] [] none none

/-- Shorthand: a nullable string node defaulting to null. -/
def strNullNone : Schema :=
  .mk .sstring true (some .vnull) [] [] none none

/-- Shorthand: a boolean node with a default. -/
def boolDefault (b : Bool) : Schema :=
  .mk .sboolean false (some (.vbool b)) [] [] none none

/-- Shorthand: a nullable datetime node defaulting to null. -/
def dtNullNone : Schema :=
  .mk .sdatetime true (some .vnull) [] [] none none

/-- The dictconfig schema for a publication spec, from
`automata/_discover/_io.py` (`_PUBLICATION_SPEC_SCHEMA`). -/
def pubSpecSchema : Schema :=
  .mk .sdict false none
    [("required_artifacts", .mk .slist false none [] [] none (some strSchema))]
    [("optional_artifacts", .mk .slist false (some (.vlist [])) [] [] none (some strSchema)),
     ("metadata_schema", .mk .sdict true (some .vnull) [] [] (some anySchema) none),
     ("allow_unspecified_artifacts", boolDefault false),
     ("is_ordered", boolDefault false)]
    none none

/-- The dictconfig schema for a collection file, from
`automata/_discover/_io.py` (`_COLLECTION_FILE_DICTCONFIG_SCHEMA`). -/
def collectionFileSchema : Schema :=
  .mk .sdict false none [("publication_spec", pubSpecSchema)] [] none none

/-- The dictconfig schema for a single artifact, from
`automata/_discover/_io.py` (`_ARTIFACT_DICTCONFIG_SCHEMA`). -/
def artifactSchema : Schema :=
  .mk .sdict false none []
    [("path", strNullNone),
     ("recipe", strNullNone),
     ("ready", boolDefault true),
     ("missing_ok", boolDefault false),
     ("release_time", dtNullNone)]
    none none

/-- A Python object held in an error attribute: the file path, a plain
string, or an exception object. Distinguishing the three records which kind
of object each attribute received. -/
inductive PyObj where
  | pathObj : String → PyObj
  | strObj : String → PyObj
  | excObj : String → PyObj
deriving DecidableEq, Repr

/-- The `MalformedFileError` of `automata/_discover/_io.py`, whose
constructor assigns its first argument to `.path` and its second to
`.reason`. -/
structure MalformedFileError where
  path : PyObj
  reason : PyObj
deriving DecidableEq, Repr

/-- The model of the Python splice `{"type": "dict", **metadata_schema}`. -/
def mergeTypeDict (ms : Value) : Value :=
  match ms with
  | .vdict kvs => .vdict (List.foldl (fun acc (p : String × Value) => dset p.1 p.2 acc)
      [("type", .vstr "dict")] kvs)
  | v => v

/-- The metadata-schema validation block of `read_collection_file`
(`automata/_discover/_io.py`): when the resolved spec carries a metadata
schema, it is validated, and the invalid-schema branch constructs its error
as `MalformedFileError(exc, path)` — exactly the argument order of the
source's `raise MalformedFileError(exc, path)`. -/
def readCollValidate (path : String) (resolved : Value) : Except MalformedFileError Value :=
  match getValD (getValD resolved "publication_spec" .vnull) "metadata_schema" .vnull with
  | .vnull => .ok resolved
  | ms =>
    match validateSchemaValue (mergeTypeDict ms) with
    | .error e => .error ⟨.excObj (errStr e), .pathObj path⟩
    | .ok _ => .ok resolved

/-- The try/except block around `dictconfig.resolve` in
`read_collection_file`: a resolution error becomes
`MalformedFileError(path, str(exc))`. -/
def readCollAfterResolve (path : String) : Except ResolutionError Value → Except MalformedFileError Value
  | .error e => .error ⟨.pathObj path, .strObj (errStr e)⟩
  | .ok resolved => readCollValidate path resolved

/-- `read_collection_file` of `automata/_discover/_io.py`: resolve the raw
collection file contents against the fixed collection schema, then validate
the metadata schema when one was supplied; the function is staged into one
definition per try/except block of the source. File I/O and YAML loading are
outside the embedding: the function receives the loaded contents. -/
def read_collection_file (path : String) (rawContents : Value) (vars : Option Value) :
    Except MalformedFileError Value :=
  readCollAfterResolve path
    (dcResolve rawContents collectionFileSchema [("vars", vars.getD (.vdict []))])

/-- The permissive publication spec substituted when no spec is supplied,
from `automata/_discover/_io.py` (`_PERMISSIVE_PUBLICATION_SPEC`; note the
source supplies `{}` for `optional_artifacts`). -/
def permissivePublicationSpec : Value :=
  .vdict [("required_artifacts", .vlist []),
          ("optional_artifacts", .vdict []),
          ("allow_unspecified_artifacts", .vbool true),
          ("metadata_schema", .vdict [("extra_keys_schema", .vdict [("type", .vstr "any")])])]

/-- The names in a resolved list-of-strings field. -/
def asStrList (v : Value) : List String :=
  match v with
  | .vlist xs => xs.filterMap (fun x => match x with | .vstr s => some s | _ => none)
  | _ => []

/-- `_make_artifacts_dictconfig_schema` of `automata/_discover/_io.py`: the
required artifacts become required keys, the optional artifacts optional
keys, and unspecified artifacts are permitted exactly when the spec allows
them. -/
def make_artifacts_dictconfig_schema (rspec : Value) : Schema :=
  let reqNames := asStrList (getValD rspec "required_artifacts" (.vlist []))
  let optNames := asStrList (getValD rspec "optional_artifacts" (.vlist []))
  let allow := match getValD rspec "allow_unspecified_artifacts" (.vbool false) with
    | .vbool b => b
    | _ => false
  .mk .sdict false none
    (reqNames.map (fun n => (n, artifactSchema)))
    (optNames.map (fun n => (n, artifactSchema)))
    (if allow then some artifactSchema else none)
    none

/-- `_make_publication_dictconfig_schema` of `automata/_discover/_io.py`:
the full publication-file schema, with the metadata key governed by the
spec's metadata schema when one is given and accepting anything (defaulting
to an empty mapping) otherwise. Parsing the spliced metadata schema models
the engine's interpretation of the schema dictionary. -/
def make_publication_dictconfig_schema (rspec : Value) : Except ResolutionError Schema :=
  let artifactsSchema := make_artifacts_dictconfig_schema rspec
  match getValD rspec "metadata_schema" .vnull with
  | .vnull =>
    .ok (.mk .sdict false none [("artifacts", artifactsSchema)]
      [("ready", boolDefault true), ("release_time", dtNullNone),
       ("metadata", .mk .sany false (some (.vdict [])) [] [] none none)] none none)
  | ms =>
    match validateSchemaValue (mergeTypeDict ms) with
    | .error e => .error e
    | .ok msSchema =>
      .ok (.mk .sdict false none [("artifacts", artifactsSchema)]
        [("ready", boolDefault true), ("release_time", dtNullNone),
         ("metadata", msSchema)] none none)

/-- The post-resolution fix-up of one artifact: a null `path` is replaced by
the artifact's own key. -/
def fixOne (k : String) (a : Value) : Value :=
  match a with
  | .vdict fields =>
    (match dlookup "path" fields with
     | some .vnull => .vdict (dset "path" (.vstr k) fields)
     | _ => a)
  | _ => a

/-- Apply the path fix-up to every artifact of the artifacts mapping. -/
def fixArtifacts : Value → Value
  | .vdict arts => .vdict (arts.map (fun p => (p.1, fixOne p.1 p.2)))
  | v => v

/-- The final loop of `read_publication_file`: default each artifact's null
`path` to its own key, leaving every other entry unchanged. -/
def postArtifactPaths : Value → Value
  | .vdict kvs => .vdict (kvs.map (fun p => if p.1 = "artifacts" then (p.1, fixArtifacts p.2) else p))
  | v => v

/-- The final stage of `read_publication_file`: the try/except block around
the `dictconfig.resolve` of the file contents, then the artifact-path
defaulting loop. -/
def readPubAfterResolve (path : String) : Except ResolutionError Value → Except MalformedFileError Value
  | .error e => .error ⟨.pathObj path, .strObj (errStr e)⟩
  | .ok resolved => .ok (postArtifactPaths resolved)

/-- The schema-construction stage of `read_publication_file`: a schema error
is surfaced at the boundary like every other resolution error; with the
schema built, the file contents are resolved against it under the external
variables. -/
def readPubWithSchema (path : String) (rawContents : Value) (env : List (String × Value)) :
    Except ResolutionError Schema → Except MalformedFileError Value
  | .error e => .error ⟨.pathObj path, .strObj (errStr e)⟩
  | .ok schema => readPubAfterResolve path (dcResolve rawContents schema env)

/-- The `previous` entry of the external variables: present exactly when a
previous publication was supplied. -/
def prevEnv : Option Value → List (String × Value)
  | none => []
  | some p => [("previous", p)]

/-- The spec-resolution stage of `read_publication_file`: the try/except
block around filling in the publication spec's defaults; with the resolved
spec, the external variables are `vars` plus `previous` when supplied. -/
def readPubWithSpec (path : String) (rawContents : Value) (vars previous : Option Value) :
    Except ResolutionError Value → Except MalformedFileError Value
  | .error e => .error ⟨.pathObj path, .strObj (errStr e)⟩
  | .ok rspec =>
    readPubWithSchema path rawContents
      ([("vars", vars.getD .vnull)] ++ prevEnv previous)
      (make_publication_dictconfig_schema rspec)

/-- `read_publication_file` of `automata/_discover/_io.py`: default the spec
to the permissive one, resolve the spec against the publication-spec schema,
build the dynamic publication schema, resolve the raw file contents against
it with `vars` (and `previous` when supplied) as external variables, and
default artifact paths; the function is staged into one definition per
try/except block of the source. Every failure is surfaced as a
`MalformedFileError(path, str(exc))`. File I/O and YAML loading are outside
the embedding: the function receives the loaded contents. -/
def read_publication_file (path : String) (rawContents : Value) (publication_spec : Option Value)
    (vars : Option Value) (previous : Option Value) : Except MalformedFileError Value :=
  readPubWithSpec path rawContents vars previous
    (dcResolve (publication_spec.getD permissivePublicationSpec) pubSpecSchema [])

/-- The `Collection` named tuple of `automata/_discover/_types.py`: the
publication spec, the publications resolved so far in discovery order, and
the `ordered` field — whose declared default is `True`. -/
structure DCollection where
  publication_spec : Value
  publications : List (String × Value)
  ordered : Bool
deriving Repr

/-- The model of `Collection(**collection_dct, publications={})` in
`_make_collections` of `automata/_discover/_discover.py`: the resolved
collection-file dictionary supplies `publication_spec` and nothing sets
`ordered`, which therefore keeps its declared default of `True`. -/
def collectionFromDict (dct : Value) : DCollection :=
  { publication_spec := getValD dct "publication_spec" .vnull
    publications := []
    ordered := match getValD dct "ordered" (.vbool true) with
      | .vbool b => b
      | _ => true }

/-- `_previous_publication` of `automata/_discover/_discover.py`: nothing
when the collection is not ordered, else the most recently added
publication. -/
def previous_publication (c : DCollection) : Option Value :=
  if !c.ordered then none
  else (c.publications.getLast?).map Prod.snd

/-- The per-collection loop of `_make_publications` in
`automata/_discover/_discover.py`: publications are processed in
filesystem-sorted order, each resolved with the previous publication
supplied by `_previous_publication`, and appended to the collection. The
`Publication`/`UnbuiltArtifact` wrapping is transparent for `${previous.*}`
navigation and is omitted; errors abort the pass (fail-fast). -/
def make_publications_chain (vars : Option Value) :
    DCollection → List (String × Value) → Except MalformedFileError DCollection
  | c, [] => .ok c
  | c, (key, raw) :: rest =>
    match read_publication_file key raw (some c.publication_spec) vars (previous_publication c) with
    | .error e => .error e
    | .ok pub =>
      make_publications_chain vars
        { c with publications := c.publications ++ [(key, pub)] } rest

/-- Top-level key lookup in a resolved (or raw) document. -/
def vget (v : Value) (k : String) : Option Value :=
  match v with
  | .vdict kvs => dlookup k kvs
  | _ => none

/-- Nested two-level lookup in a resolved document. -/
def vget2 (v : Value) (k1 k2 : String) : Option Value :=
  match vget v k1 with
  | some w => vget w k2
  | none => none

/-- Datetime value shorthand for concrete documents. -/
def dtv (y m d hh mm : Int) : Value :=
  .vdatetime ⟨⟨y, m, d⟩, hh, mm, 0⟩

/-- Whether a raw publication file supplies an artifact named `n`. -/
def rawArtifactHas (raw : Value) (n : String) : Bool :=
  match vget raw "artifacts" with
  | some (.vdict arts) => (dlookup n arts).isSome
  | _ => false

/-- The raw `path` entry of the artifact named `n` in a raw publication file,
when the artifact entry is a mapping. -/
def rawArtifactPath (raw : Value) (n : String) : Option Value :=
  match vget raw "artifacts" with
  | some (.vdict arts) =>
    (match dlookup n arts with
     | some (.vdict fields) => dlookup "path" fields
     | _ => none)
  | _ => none

/-- The raw entry of a named field of the artifact named `n` in a raw
publication file, when the artifact entry is a mapping. -/
def rawArtifactField (raw : Value) (n fld : String) : Option Value :=
  match vget raw "artifacts" with
  | some (.vdict arts) =>
    (match dlookup n arts with
     | some (.vdict fields) => dlookup fld fields
     | _ => none)
  | _ => none

/-- Whether the keys of the raw artifacts mapping are pairwise distinct (YAML
mappings never repeat keys). -/
def rawArtifactKeysNodup (raw : Value) : Prop :=
  match vget raw "artifacts" with
  | some (.vdict arts) => (arts.map Prod.fst).Nodup
  | _ => True

/-- The publication spec of `test_with_relative_dates_in_metadata`, restricted
to the two metadata keys the claim is about. -/
def c1Spec : Value :=
  .vdict [("required_artifacts", .vlist [.vstr "homework", .vstr "solution"]),
          ("metadata_schema", .vdict [("required_keys", .vdict [
              ("due", .vdict [("type", .vstr "datetime")]),
              ("released", .vdict [("type", .vstr "datetime")])])])]

/-- The metadata entry `due: 2020-09-10 23:59:00`. -/
def c1Due : String × Value :=
  ("due", dtv 2020 9 10 23 59)

/-- The metadata entry `released: "7 days before ${this.metadata.due}"`. -/
def c1Rel : String × Value :=
  ("released", .vstr "7 days before ${this.metadata.due}")

/-- The publication file of `test_with_relative_dates_in_metadata`, with the
metadata mapping left as a parameter so both key orders can be considered. -/
def c1Raw (md : List (String × Value)) : Value :=
  .vdict [("metadata", .vdict md),
          ("artifacts", .vdict [
            ("homework", .vdict [("path", .vstr "./homework.pdf"),
                                 ("recipe", .vstr "make homework")]),
            ("solution", .vdict [("path", .vstr "./solution.pdf"),
                                 ("recipe", .vstr "make solution"),
                                 ("release_time", dtv 2020 1 2 23 59)])])]

/-- A collection file whose `metadata_schema` is not a valid schema fragment
(the input of `test_raises_on_invalid_metadata_schema`). -/
def c2Raw : Value :=
  .vdict [("publication_spec", .vdict [
    ("required_artifacts", .vlist [.vstr "foo", .vstr "bar"]),
    ("metadata_schema", .vdict [("foo", .vint 1), ("bar", .vint 2)])])]

/-- A collection file that explicitly sets `is_ordered: false`. -/
def c3CollRaw : Value :=
  .vdict [("publication_spec", .vdict [
    ("required_artifacts", .vlist []),
    ("metadata_schema", .vdict [("required_keys", .vdict [
       ("due", .vdict [("type", .vstr "datetime")])])]),
    ("is_ordered", .vbool false)])]

/-- First publication of the unordered collection. -/
def c3Pub01 : Value :=
  .vdict [("metadata", .vdict [("due", dtv 2021 1 5 23 0)]), ("artifacts", .vdict [])]

/-- Second publication of the unordered collection; its `due` refers to
`${previous.metadata.due}` and can only resolve if a previous publication was
supplied. -/
def c3Pub02 : Value :=
  .vdict [("metadata", .vdict [("due", .vstr "1 day after ${previous.metadata.due}")]),
          ("artifacts", .vdict [])]

/-- The publication file of `test_with_invalid_relative_date_raises`, with the
`due` datetime left as a parameter. -/
def c8Raw (d : PDateTime) : Value :=
  .vdict [("metadata", .vdict [("name", .vstr "Homework 01"),
                               ("due", .vdatetime d),
                               ("released", .vdate ⟨2020, 9, 1⟩)]),
          ("artifacts", .vdict [
            ("homework", .vdict [("path", .vstr "./homework.pdf"),
                                 ("recipe", .vstr "make homework")]),
            ("solution", .vdict [("path", .vstr "./solution.pdf"),
                                 ("recipe", .vstr "make solution"),
                                 ("release_time", .vstr "-1 days after ${this.metadata.due}")])])]

/-- The publication spec of `test_raises_if_required_artifact_is_not_provided`. -/
def c4Spec : Value :=
  .vdict [("required_artifacts", .vlist [.vstr "homework", .vstr "solution"]),
          ("metadata_schema", .vdict [("required_keys", .vdict [
              ("name", .vdict [("type", .vstr "string")]),
              ("due", .vdict [("type", .vstr "date")]),
              ("released", .vdict [("type", .vstr "date")])])])]

/-- The resolved form of `c4Spec` (defaults filled in). -/
def c4Rspec : Value :=
  .vdict [("required_artifacts", .vlist [.vstr "homework", .vstr "solution"]),
          ("optional_artifacts", .vlist []),
          ("metadata_schema", .vdict [("required_keys", .vdict [
              ("name", .vdict [("type", .vstr "string")]),
              ("due", .vdict [("type", .vstr "date")]),
              ("released", .vdict [("type", .vstr "date")])])]),
          ("allow_unspecified_artifacts", .vbool false),
          ("is_ordered", .vbool false)]

/-- The publication file of that test: only `homework` is supplied. -/
def c4Raw : Value :=
  .vdict [("metadata", .vdict [("name", .vstr "Homework 01"),
                               ("due", .vdate ⟨2020, 9, 10⟩),
                               ("released", .vstr "${ this.metadata.due }")]),
          ("artifacts", .vdict [
            ("homework", .vdict [("path", .vstr "./homework.pdf"),
                                 ("recipe", .vstr "make homework")])])]

/-- The publication spec of the unknown-artifact tests (without
`allow_unspecified_artifacts`). -/
def c6SpecNoAllow : Value :=
  .vdict [("required_artifacts", .vlist [.vstr "homework"]),
          ("metadata_schema", .vdict [("required_keys", .vdict [
              ("name", .vdict [("type", .vstr "string")]),
              ("due", .vdict [("type", .vstr "date")]),
              ("released", .vdict [("type", .vstr "date")])])])]

/-- The same spec with `allow_unspecified_artifacts: true`. -/
def c6SpecAllow : Value :=
  .vdict [("required_artifacts", .vlist [.vstr "homework"]),
          ("metadata_schema", .vdict [("required_keys", .vdict [
              ("name", .vdict [("type", .vstr "string")]),
              ("due", .vdict [("type", .vstr "date")]),
              ("released", .vdict [("type", .vstr "date")])])]),
          ("allow_unspecified_artifacts", .vbool true)]

/-- The resolved form of `c6SpecNoAllow`. -/
def c6Rspec : Value :=
  .vdict [("required_artifacts", .vlist [.vstr "homework"]),
          ("optional_artifacts", .vlist []),
          ("metadata_schema", .vdict [("required_keys", .vdict [
              ("name", .vdict [("type", .vstr "string")]),
              ("due", .vdict [("type", .vstr "date")]),
              ("released", .vdict [("type", .vstr "date")])])]),
          ("allow_unspecified_artifacts", .vbool false),
          ("is_ordered", .vbool false)]

/-- The publication file of the unknown-artifact tests: it supplies the
declared `homework` and an undeclared `woo`. -/
def c6Raw : Value :=
  .vdict [("metadata", .vdict [("name", .vstr "Homework 01"),
                               ("due", .vdate ⟨2020, 9, 10⟩),
                               ("released", .vstr "${ this.metadata.due }")]),
          ("artifacts", .vdict [
            ("homework", .vdict [("path", .vstr "./homework.pdf"),
                                 ("recipe", .vstr "make homework")]),
            ("woo", .vdict [("path", .vstr "./something.pdf")])])]

/-- The publication file of `test_ready_field_can_be_provided`, reduced to a
single artifact, as an association list. -/
def c7Kvs : List (String × Value) :=
  [("metadata", .vdict [("name", .vstr "hi")]),
   ("artifacts", .vdict [("homework", .vdict [("recipe", .vstr "make")])]),
   ("ready", .vbool false)]

/-- The resolved output of reading that file with no spec. -/
def c7Out : Value :=
  .vdict [("artifacts", .vdict [("homework", .vdict [
              ("path", .vstr "homework"),
              ("recipe", .vstr "make"),
              ("ready", .vbool true),
              ("missing_ok", .vbool false),
              ("release_time", .vnull)])]),
          ("ready", .vbool false),
          ("release_time", .vnull),
          ("metadata", .vdict [("name", .vstr "hi")])]

/-- A publication spec supplying only `required_artifacts`. -/
def c9Spec (names : List String) : Value :=
  .vdict [("required_artifacts", .vlist (names.map .vstr))]

/-- A collection file whose publication spec supplies only
`required_artifacts`. -/
def c9Raw (names : List String) : Value :=
  .vdict [("publication_spec", c9Spec names)]

/-- The resolved publication spec: every omitted optional field filled with
its documented default. -/
def c9RSpec (names : List String) : Value :=
  .vdict [("required_artifacts", .vlist (names.map .vstr)),
          ("optional_artifacts", .vlist []),
          ("metadata_schema", .vnull),
          ("allow_unspecified_artifacts", .vbool false),
          ("is_ordered", .vbool false)]

/-- The resolved collection file built from `c9RSpec`. -/
def c9Out (names : List String) : Value :=
  .vdict [("publication_spec", c9RSpec names)]

/-- The publication file of the artifact-path examples: `homework.pdf`
supplies no `path`, `solution` supplies `path: sol.pdf`. -/
def c5Raw : Value :=
  .vdict [("metadata", .vdict [("name", .vstr "hi")]),
          ("artifacts", .vdict [
             ("homework.pdf", .vdict [("recipe", .vstr "make")]),
             ("solution", .vdict [("path", .vstr "sol.pdf")])])]

/-- The resolved `homework.pdf` artifact: its `path` defaulted to its key. -/
def c5HwRes : Value :=
  .vdict [("path", .vstr "homework.pdf"), ("recipe", .vstr "make"),
          ("ready", .vbool true), ("missing_ok", .vbool false),
          ("release_time", .vnull)]

/-- The resolved `solution` artifact: its supplied `path` is kept. -/
def c5SolRes : Value :=
  .vdict [("path", .vstr "sol.pdf"), ("recipe", .vnull),
          ("ready", .vbool true), ("missing_ok", .vbool false),
          ("release_time", .vnull)]

/-- The resolved artifacts mapping of `c5Raw`. -/
def c5Arts : List (String × Value) :=
  [("homework.pdf", c5HwRes), ("solution", c5SolRes)]

/-- The resolved output of reading `c5Raw` with no spec. -/
def c5Out : Value :=
  .vdict [("artifacts", .vdict c5Arts),
          ("ready", .vbool true),
          ("release_time", .vnull),
          ("metadata", .vdict [("name", .vstr "hi")])]

/-- A publication file whose only artifact supplies no field at all. -/
def c10Raw : Value :=
  .vdict [("artifacts", .vdict [("hw", .vdict [])])]

/-- The fully defaulted resolved artifact of `c10Raw`. -/
def c10Res : Value :=
  .vdict [("path", .vstr "hw"), ("recipe", .vnull), ("ready", .vbool true),
          ("missing_ok", .vbool false), ("release_time", .vnull)]

/-- The resolved artifacts mapping of `c10Raw`. -/
def c10Arts : List (String × Value) :=
  [("hw", c10Res)]

/-- The resolved output of reading `c10Raw` with no spec. -/
def c10Out : Value :=
  .vdict [("artifacts", .vdict c10Arts),
          ("ready", .vbool true),
          ("release_time", .vnull)]

/-- One unfolding step of the engine at positive fuel. -/
theorem resolve_succ (fuel : Nat) (ctx : RCtx) (vis : List (List String)) (raw : Value)
    (schema : Schema) :
    resolve (fuel + 1) ctx vis raw schema =
      resolveStep (fun vis' v sch => resolve fuel ctx vis' v sch)
        ctx.env ctx.root ctx.rootSchema vis raw schema :=
  rfl

theorem dlookup_append (k : String) (xs ys : List (String × Value)) :
    dlookup k (xs ++ ys) =
      match dlookup k xs with
      | some v => some v
      | none => dlookup k ys := by
  induction xs with
  | nil => rfl
  | cons p rest ih =>
    obtain ⟨k', v⟩ := p
    by_cases h : k' = k <;> simp [dlookup, h, ih]

theorem dlookup_dset (k k' : String) (v : Value) (l : List (String × Value)) :
    dlookup k' (dset k v l) = if k = k' then some v else dlookup k' l := by
  induction l with
  | nil => simp [dset, dlookup]
  | cons p rest ih =>
    obtain ⟨k'', v''⟩ := p
    by_cases h1 : k'' = k
    · subst h1
      by_cases h2 : k'' = k' <;> simp [dset, dlookup, h2]
    · by_cases h2 : k'' = k'
      · have h3 : ¬ k = k' := by
          intro he
          exact h1 (by rw [h2, he])
        have h4 : ¬ k' = k := fun he => h3 he.symm
        simp [dset, dlookup, h1, h2, h3, h4]
      · simp [dset, dlookup, h1, h2, ih]

theorem dlookup_of_mem_nodup {k : String} {v : Value} {l : List (String × Value)}
    (hnd : (l.map Prod.fst).Nodup) (hm : (k, v) ∈ l) : dlookup k l = some v := by
  induction l with
  | nil => cases hm
  | cons p rest ih =>
    obtain ⟨k', v'⟩ := p
    simp only [List.map_cons, List.nodup_cons] at hnd
    rcases List.mem_cons.mp hm with heq | hmem
    · injection heq with h1 h2
      subst h1; subst h2
      simp [dlookup]
    · have hne : k' ≠ k := by
        intro he
        subst he
        exact hnd.1 (List.mem_map.mpr ⟨(k', v), hmem, rfl⟩)
      simp [dlookup, hne, ih hnd.2 hmem]

theorem strMk_data (s : String) : String.mk s.data = s := by
  cases s
  rfl

theorem resolve_ok_elim {fuel : Nat} {ctx : RCtx} {vis : List (List String)} {raw : Value}
    {sch : Schema} {out : Value} (h : resolve fuel ctx vis raw sch = .ok out) :
    ∃ f', fuel = f' + 1 ∧
      resolveStep (fun vis' v s => resolve f' ctx vis' v s)
        ctx.env ctx.root ctx.rootSchema vis raw sch = .ok out := by
  cases fuel with
  | zero => exact absurd h (by simp [resolve])
  | succ f => exact ⟨f, rfl, h⟩

theorem resolveReq_ok_mem {res : ResCb} {vis : List (List String)} {kvs : List (String × Value)}
    {reqs : List (String × Schema)} {out : List (String × Value)}
    (h : resolveReq res vis kvs reqs = .ok out) {k : String} {sch : Schema}
    (hk : (k, sch) ∈ reqs) : ∃ v rv, dlookup k kvs = some v ∧ res vis v sch = .ok rv := by
  induction reqs generalizing out with
  | nil => cases hk
  | cons p rest ih =>
    obtain ⟨k', sch'⟩ := p
    simp only [resolveReq] at h
    split at h
    next hd => cases h
    next v hd =>
      split at h
      next e hr => cases h
      next rv hr =>
        split at h
        next e ht => cases h
        next out' ht =>
          rcases List.mem_cons.mp hk with heq | hmem
          · injection heq with h1 h2
            subst h1; subst h2
            exact ⟨v, rv, hd, hr⟩
          · exact ih ht hmem

theorem resolveReq_singleton {res : ResCb} {vis : List (List String)}
    {kvs : List (String × Value)} {k : String} {sch : Schema} {out : List (String × Value)}
    (h : resolveReq res vis kvs [(k, sch)] = .ok out) :
    ∃ v rv, dlookup k kvs = some v ∧ res vis v sch = .ok rv ∧ out = [(k, rv)] := by
  simp only [resolveReq] at h
  split at h
  next hd => cases h
  next v hd =>
    split at h
    next e hr => cases h
    next rv hr =>
      injection h with h
      exact ⟨v, rv, hd, hr, h.symm⟩

theorem resolveReq_ok_entries {res : ResCb} {vis : List (List String)}
    {kvs : List (String × Value)} {reqs : List (String × Schema)} {out : List (String × Value)}
    (h : resolveReq res vis kvs reqs = .ok out) {k : String} {a : Value} (ha : (k, a) ∈ out) :
    ∃ sch v, (k, sch) ∈ reqs ∧ dlookup k kvs = some v ∧ res vis v sch = .ok a := by
  induction reqs generalizing out with
  | nil =>
    simp only [resolveReq] at h
    injection h with h
    subst h
    cases ha
  | cons p rest ih =>
    obtain ⟨k', sch'⟩ := p
    simp only [resolveReq] at h
    split at h
    next hd => cases h
    next v hd =>
      split at h
      next e hr => cases h
      next rv hr =>
        split at h
        next e ht => cases h
        next out' ht =>
          injection h with h
          subst h
          rcases List.mem_cons.mp ha with heq | hmem
          · injection heq with h1 h2
            subst h1; subst h2
            exact ⟨sch', v, List.mem_cons_self _ _, hd, hr⟩
          · obtain ⟨sch, v0, hmem', hd', hr'⟩ := ih ht hmem
            exact ⟨sch, v0, List.mem_cons_of_mem _ hmem', hd', hr'⟩

theorem resolveOpt_ok_entries {res : ResCb} {vis : List (List String)}
    {kvs : List (String × Value)} {opts : List (String × Schema)} {out : List (String × Value)}
    (h : resolveOpt res vis kvs opts = .ok out) {k : String} {a : Value} (ha : (k, a) ∈ out) :
    ∃ sch, (k, sch) ∈ opts ∧
      ((∃ v, dlookup k kvs = some v ∧ res vis v sch = .ok a) ∨
       (dlookup k kvs = none ∧ sch.defaultVal = some a)) := by
  induction opts generalizing out with
  | nil =>
    simp only [resolveOpt] at h
    injection h with h
    subst h
    cases ha
  | cons p rest ih =>
    obtain ⟨k', sch'⟩ := p
    simp only [resolveOpt] at h
    split at h
    next v hd =>
      split at h
      next e hr => cases h
      next rv hr =>
        split at h
        next e ht => cases h
        next out' ht =>
          injection h with h
          subst h
          rcases List.mem_cons.mp ha with heq | hmem
          · injection heq with h1 h2
            subst h1; subst h2
            exact ⟨sch', List.mem_cons_self _ _, Or.inl ⟨v, hd, hr⟩⟩
          · obtain ⟨sch, hmem', hor⟩ := ih ht hmem
            exact ⟨sch, List.mem_cons_of_mem _ hmem', hor⟩
    next hd =>
      split at h
      next d hdf =>
        split at h
        next e ht => cases h
        next out' ht =>
          injection h with h
          subst h
          rcases List.mem_cons.mp ha with heq | hmem
          · injection heq with h1 h2
            subst h1; subst h2
            exact ⟨sch', List.mem_cons_self _ _, Or.inr ⟨hd, hdf⟩⟩
          · obtain ⟨sch, hmem', hor⟩ := ih ht hmem
            exact ⟨sch, List.mem_cons_of_mem _ hmem', hor⟩
      next hdf =>
        obtain ⟨sch, hmem, hor⟩ := ih h ha
        exact ⟨sch, List.mem_cons_of_mem _ hmem, hor⟩

theorem resolveOpt_head_default {res : ResCb} {vis : List (List String)}
    {kvs : List (String × Value)} {k : String} (sch : Schema) (d : Value)
    {rest : List (String × Schema)} {out : List (String × Value)}
    (hdf : sch.defaultVal = some d)
    (h : resolveOpt res vis kvs ((k, sch) :: rest) = .ok out) :
    ∃ rv tail, out = (k, rv) :: tail ∧
      ((∃ v, dlookup k kvs = some v ∧ res vis v sch = .ok rv) ∨
       (dlookup k kvs = none ∧ rv = d)) ∧
      resolveOpt res vis kvs rest = .ok tail := by
  simp only [resolveOpt] at h
  split at h
  next v hd =>
    split at h
    next e hr => cases h
    next rv hr =>
      split at h
      next e ht => cases h
      next out' ht =>
        injection h with h
        subst h
        exact ⟨rv, out', rfl, Or.inl ⟨v, hd, hr⟩, ht⟩
  next hd =>
    simp only [hdf] at h
    split at h
    next e ht => cases h
    next out' ht =>
      injection h with h
      subst h
      exact ⟨d, out', rfl, Or.inr ⟨hd, rfl⟩, ht⟩

theorem resolveExtra_none_ok {res : ResCb} {vis : List (List String)} {covered : List String}
    {kvs : List (String × Value)} {out : List (String × Value)}
    (h : resolveExtra res vis none covered kvs = .ok out) :
    out = [] ∧ ∀ p ∈ kvs, (p : String × Value).1 ∈ covered := by
  induction kvs generalizing out with
  | nil =>
    simp only [resolveExtra] at h
    injection h with h
    exact ⟨h.symm, by intro p hp; cases hp⟩
  | cons p rest ih =>
    obtain ⟨k, v⟩ := p
    simp only [resolveExtra] at h
    by_cases hc : k ∈ covered
    · rw [if_pos hc] at h
      obtain ⟨ho, hall⟩ := ih h
      refine ⟨ho, ?_⟩
      intro q hq
      rcases List.mem_cons.mp hq with heq | hmem
      · subst heq; exact hc
      · exact hall q hmem
    · rw [if_neg hc] at h
      cases h

theorem resolveExtra_some_entries {res : ResCb} {vis : List (List String)} {es : Schema}
    {covered : List String} {kvs : List (String × Value)} {out : List (String × Value)}
    (h : resolveExtra res vis (some es) covered kvs = .ok out) {k : String} {a : Value}
    (ha : (k, a) ∈ out) : ∃ v, (k, v) ∈ kvs ∧ res vis v es = .ok a := by
  induction kvs generalizing out with
  | nil =>
    simp only [resolveExtra] at h
    injection h with h
    subst h
    cases ha
  | cons p rest ih =>
    obtain ⟨k', v⟩ := p
    simp only [resolveExtra] at h
    by_cases hc : k' ∈ covered
    · rw [if_pos hc] at h
      obtain ⟨v0, hmem, hr⟩ := ih h ha
      exact ⟨v0, List.mem_cons_of_mem _ hmem, hr⟩
    · rw [if_neg hc] at h
      split at h
      next e hr => cases h
      next rv hr =>
        split at h
        next e ht => cases h
        next out' ht =>
          injection h with h
          subst h
          rcases List.mem_cons.mp ha with heq | hmem
          · injection heq with h1 h2
            subst h1; subst h2
            exact ⟨v, List.mem_cons_self _ _, hr⟩
          · obtain ⟨v0, hmem', hr'⟩ := ih ht hmem
            exact ⟨v0, List.mem_cons_of_mem _ hmem', hr'⟩

/-- Inversion of a successful dict-node resolution (non-nullable case): the
raw value is a mapping and the three key groups all resolved. -/
theorem resolveStep_dict_ok {res : ResCb} {env : List (String × Value)} {root : Value}
    {rsch : Schema} {vis : List (List String)} {raw : Value} {dflt : Option Value}
    {req opt : List (String × Schema)} {ex : Option Schema} {el : Option Schema} {out : Value}
    (h : resolveStep res env root rsch vis raw (.mk .sdict false dflt req opt ex el) = .ok out) :
    ∃ kvs rq op exo, raw = .vdict kvs ∧
      resolveReq res vis kvs req = .ok rq ∧
      resolveOpt res vis kvs opt = .ok op ∧
      resolveExtra res vis ex (req.map Prod.fst ++ opt.map Prod.fst) kvs = .ok exo ∧
      out = .vdict (rq ++ op ++ exo) := by
  cases raw with
  | vdict kvs =>
    simp only [resolveStep] at h
    split at h
    next e hq => cases h
    next rq hq =>
      split at h
      next e ho => cases h
      next op ho =>
        split at h
        next e he => cases h
        next exo he =>
          injection h with h
          exact ⟨kvs, rq, op, exo, rfl, hq, ho, he, h.symm⟩
  | vnull => simp [resolveStep] at h
  | vbool b => simp [resolveStep] at h
  | vint n => simp [resolveStep] at h
  | vstr s => simp [resolveStep] at h
  | vdate d => simp [resolveStep] at h
  | vdatetime d => simp [resolveStep] at h
  | vlist xs => simp [resolveStep] at h

theorem checkKind_sstring_shape {v out : Value} (h : checkKind .sstring v = .ok out) :
    ∃ s, out = .vstr s := by
  cases v with
  | vstr s =>
    injection h with h
    exact ⟨s, h.symm⟩
  | vnull => cases h
  | vbool b => cases h
  | vint n => cases h
  | vdate d => cases h
  | vdatetime d => cases h
  | vlist l => cases h
  | vdict l => cases h

/-- A string-kinded node only ever resolves to a string or (when nullable) to
null, whatever the recursion callback does. -/
theorem resolveStep_string_ok {res : ResCb} {env : List (String × Value)} {root : Value}
    {rsch : Schema} {vis : List (List String)} {raw : Value} {nl : Bool} {dflt : Option Value}
    {req opt : List (String × Schema)} {ex el : Option Schema} {out : Value}
    (h : resolveStep res env root rsch vis raw (.mk .sstring nl dflt req opt ex el) = .ok out) :
    out = .vnull ∨ ∃ s, out = .vstr s := by
  cases raw with
  | vnull =>
    simp only [resolveStep, resolveScalar] at h
    split at h
    next => injection h with h; exact Or.inl h.symm
    next => cases h
  | vstr s =>
    simp only [resolveStep, resolveScalar] at h
    split at h
    next e hi => cases h
    next v hi => exact Or.inr (checkKind_sstring_shape h)
  | vbool b => cases h
  | vint n => cases h
  | vdate d => cases h
  | vdatetime d => cases h
  | vlist l => cases h
  | vdict l => cases h

theorem resolve_string_ok {fuel : Nat} {ctx : RCtx} {vis : List (List String)} {raw : Value}
    {nl : Bool} {dflt : Option Value} {req opt : List (String × Schema)} {ex el : Option Schema}
    {out : Value}
    (h : resolve fuel ctx vis raw (.mk .sstring nl dflt req opt ex el) = .ok out) :
    out = .vnull ∨ ∃ s, out = .vstr s := by
  obtain ⟨f', hf, h⟩ := resolve_ok_elim h
  exact resolveStep_string_ok h

/-- A boolean supplied for a boolean-kinded node resolves to itself. -/
theorem resolveStep_bool_value {res : ResCb} {env : List (String × Value)} {root : Value}
    {rsch : Schema} {vis : List (List String)} (b bd : Bool) :
    resolveStep res env root rsch vis (.vbool b) (boolDefault bd) = .ok (.vbool b) :=
  rfl

theorem resolve_bool_value {fuel : Nat} {ctx : RCtx} {vis : List (List String)} {b bd : Bool}
    {out : Value} (h : resolve fuel ctx vis (.vbool b) (boolDefault bd) = .ok out) :
    out = .vbool b := by
  obtain ⟨f', hf, h⟩ := resolve_ok_elim h
  rw [resolveStep_bool_value] at h
  injection h with h
  exact h.symm

theorem scanGo_noInterp : ∀ (cs acc : List Char), noInterpC cs = true →
    scanGo false acc cs = .ok (emitLit (cs.reverse ++ acc)) := by
  intro cs
  induction cs with
  | nil =>
    intro acc h
    simp [scanGo]
  | cons c cs ih =>
    intro acc h
    cases cs with
    | nil => simp [scanGo]
    | cons c2 cs2 =>
      simp only [noInterpC] at h
      split at h
      next hc => cases h
      next hc =>
        simp only [scanGo]
        rw [if_neg hc]
        rw [ih (c :: acc) h]
        simp [List.reverse_cons, List.append_assoc]

theorem interpValue_noInterp (refEv : RefCb) (vis : List (List String)) {s : String}
    (h : noInterpStr s = true) : interpValue refEv vis s = .ok (.vstr s) := by
  have hs : scanInterp s = .ok (emitLit s.data.reverse) := by
    have h2 := scanGo_noInterp s.toList [] h
    simpa [scanInterp] using h2
  unfold interpValue
  rw [hs]
  cases hd : s.data with
  | nil =>
    have h1 : String.mk s.data = s := strMk_data s
    rw [hd] at h1
    rw [← h1]
    rfl
  | cons c rest =>
    have h1 : String.mk s.data = s := strMk_data s
    rw [hd] at h1
    rw [← h1]
    have h2 : ((c :: rest).reverse).isEmpty = false := by
      simp [List.isEmpty_iff]
    simp only [emitLit, h2, Bool.false_eq_true, if_false, List.reverse_reverse]
    rfl

/-- A string with no placeholder resolves to itself at a string-kinded node. -/
theorem resolveStep_string_plain {res : ResCb} {env : List (String × Value)} {root : Value}
    {rsch : Schema} {vis : List (List String)} {s : String} {nl : Bool} {dflt : Option Value}
    {req opt : List (String × Schema)} {ex el : Option Schema}
    (h : noInterpStr s = true) :
    resolveStep res env root rsch vis (.vstr s) (.mk .sstring nl dflt req opt ex el) =
      .ok (.vstr s) := by
  simp only [resolveStep, resolveScalar]
  rw [interpValue_noInterp _ _ h]
  rfl

theorem resolve_string_plain {fuel : Nat} (hf : fuel ≠ 0) {ctx : RCtx}
    {vis : List (List String)} {s : String} {nl : Bool} {dflt : Option Value}
    {req opt : List (String × Schema)} {ex el : Option Schema}
    (h : noInterpStr s = true) :
    resolve fuel ctx vis (.vstr s) (.mk .sstring nl dflt req opt ex el) = .ok (.vstr s) := by
  cases fuel with
  | zero => cases hf rfl
  | succ f =>
    rw [resolve_succ]
    exact resolveStep_string_plain h

theorem resolve_strSchema_plain {fuel : Nat} (hf : fuel ≠ 0) {ctx : RCtx}
    {vis : List (List String)} {s : String} (h : noInterpStr s = true) :
    resolve fuel ctx vis (.vstr s) strSchema = .ok (.vstr s) :=
  resolve_string_plain hf h

theorem mapExcept_strings {fuel : Nat} (hf : fuel ≠ 0) {ctx : RCtx}
    {vis : List (List String)} (names : List String)
    (h : ∀ n ∈ names, noInterpStr n = true) :
    mapExcept (fun v => resolve fuel ctx vis v strSchema) (names.map .vstr) =
      .ok (names.map .vstr) := by
  induction names with
  | nil => simp [mapExcept]
  | cons n rest ih =>
    simp only [List.map_cons, mapExcept]
    rw [resolve_strSchema_plain hf (h n (List.mem_cons_self _ _))]
    rw [ih (fun m hm => h m (List.mem_cons_of_mem _ hm))]

/-- The shape of a successfully built publication-file schema. -/
theorem make_pub_schema_ok {rspec : Value} {sch : Schema}
    (h : make_publication_dictconfig_schema rspec = .ok sch) :
    ∃ msSch, sch = .mk .sdict false none
      [("artifacts", make_artifacts_dictconfig_schema rspec)]
      [("ready", boolDefault true), ("release_time", dtNullNone), ("metadata", msSch)]
      none none := by
  simp only [make_publication_dictconfig_schema] at h
  split at h
  next =>
    injection h with h
    exact ⟨_, h.symm⟩
  next ms hms =>
    split at h
    next e hv => cases h
    next msSchema hv =>
      injection h with h
      exact ⟨msSchema, h.symm⟩

theorem make_artifacts_eq (rspec : Value) :
    make_artifacts_dictconfig_schema rspec = .mk .sdict false none
      ((asStrList (getValD rspec "required_artifacts" (.vlist []))).map
        (fun n => (n, artifactSchema)))
      ((asStrList (getValD rspec "optional_artifacts" (.vlist []))).map
        (fun n => (n, artifactSchema)))
      (if (match getValD rspec "allow_unspecified_artifacts" (.vbool false) with
           | .vbool b => b
           | _ => false) then some artifactSchema else none)
      none :=
  rfl

/-- Case split on an `Except` value without abstracting occurrences. -/
theorem except_split {ε α : Type} (x : Except ε α) :
    (∃ e, x = .error e) ∨ (∃ v, x = .ok v) := by
  cases x with
  | error e => exact Or.inl ⟨e, rfl⟩
  | ok v => exact Or.inr ⟨v, rfl⟩

/-- Inversion of a successful `read_publication_file`: the spec resolved, the
dynamic schema was built, the raw contents resolved against it, and the
result is the path-fixed resolved document. -/
theorem read_pub_ok_elim {path : String} {raw : Value} {spec vars prev : Option Value}
    {out : Value} (h : read_publication_file path raw spec vars prev = .ok out) :
    ∃ rspec schema resolved,
      dcResolve (spec.getD permissivePublicationSpec) pubSpecSchema [] = .ok rspec ∧
      make_publication_dictconfig_schema rspec = .ok schema ∧
      dcResolve raw schema ([("vars", vars.getD .vnull)] ++ prevEnv prev) = .ok resolved ∧
      out = postArtifactPaths resolved := by
  unfold read_publication_file at h
  rcases except_split (dcResolve (spec.getD permissivePublicationSpec) pubSpecSchema [])
      with ⟨e, h1⟩ | ⟨rspec, h1⟩
  · rw [h1] at h
    simp only [readPubWithSpec] at h
    cases h
  · rw [h1] at h
    simp only [readPubWithSpec] at h
    rcases except_split (make_publication_dictconfig_schema rspec) with ⟨e, h2⟩ | ⟨schema, h2⟩
    · rw [h2] at h
      simp only [readPubWithSchema] at h
      cases h
    · rw [h2] at h
      simp only [readPubWithSchema] at h
      rcases except_split (dcResolve raw schema ([("vars", vars.getD .vnull)] ++ prevEnv prev))
          with ⟨e, h3⟩ | ⟨resolved, h3⟩
      · rw [h3] at h
        simp only [readPubAfterResolve] at h
        cases h
      · rw [h3] at h
        simp only [readPubAfterResolve] at h
        injection h with h
        exact ⟨rspec, schema, resolved, h1, h2, h3, h.symm⟩

theorem make_artifacts_required_mem (rspec : Value) {n : String}
    (hn : n ∈ asStrList (getValD rspec "required_artifacts" (.vlist []))) :
    (n, artifactSchema) ∈ (make_artifacts_dictconfig_schema rspec).requiredKeys := by
  rw [make_artifacts_eq]
  simp only [Schema.requiredKeys]
  exact List.mem_map.mpr ⟨n, hn, rfl⟩

theorem resolve_ok_fuel_pos {fuel : Nat} {ctx : RCtx} {vis : List (List String)}
    {raw : Value} {sch : Schema} {out : Value}
    (h : resolve fuel ctx vis raw sch = .ok out) : fuel ≠ 0 := by
  intro he
  subst he
  simp [resolve] at h

/-- A null supplied for any nullable node resolves to null. -/
theorem resolve_vnull_nullable {fuel : Nat} {ctx : RCtx} {vis : List (List String)}
    {kind : SKind} {dflt : Option Value} {req opt : List (String × Schema)}
    {ex el : Option Schema} {out : Value}
    (h : resolve fuel ctx vis .vnull (.mk kind true dflt req opt ex el) = .ok out) :
    out = .vnull := by
  obtain ⟨f, hf, h⟩ := resolve_ok_elim h
  cases kind <;> simp_all [resolveStep, resolveScalar]

theorem resolve_strNullNone_plain {fuel : Nat} (hf : fuel ≠ 0) {ctx : RCtx}
    {vis : List (List String)} {s : String} (h : noInterpStr s = true) :
    resolve fuel ctx vis (.vstr s) strNullNone = .ok (.vstr s) :=
  resolve_string_plain hf h

theorem artifactSchema_eq :
    artifactSchema = .mk .sdict false none []
      [("path", strNullNone),
       ("recipe", strNullNone),
       ("ready", boolDefault true),
       ("missing_ok", boolDefault false),
       ("release_time", dtNullNone)]
      none none :=
  rfl

/-- Inversion of a successful artifact resolution: the raw artifact is a
mapping, the output carries exactly the five artifact fields in schema order,
`path` is null or a string, and every omitted field takes its schema
default. -/
theorem resolve_artifact_ok {fuel : Nat} {ctx : RCtx} {vis : List (List String)}
    {a out : Value} (h : resolve fuel ctx vis a artifactSchema = .ok out) :
    ∃ fields pv recv rdv mov rtv,
      a = .vdict fields ∧
      out = .vdict [("path", pv), ("recipe", recv), ("ready", rdv),
                    ("missing_ok", mov), ("release_time", rtv)] ∧
      (pv = .vnull ∨ ∃ s, pv = .vstr s) ∧
      (dlookup "path" fields = none → pv = .vnull) ∧
      (dlookup "path" fields = some .vnull → pv = .vnull) ∧
      (∀ s, dlookup "path" fields = some (.vstr s) → noInterpStr s = true → pv = .vstr s) ∧
      (dlookup "recipe" fields = none → recv = .vnull) ∧
      (dlookup "ready" fields = none → rdv = .vbool true) ∧
      (dlookup "missing_ok" fields = none → mov = .vbool false) ∧
      (dlookup "release_time" fields = none → rtv = .vnull) := by
  obtain ⟨f, hf, hstep⟩ := resolve_ok_elim h
  rw [artifactSchema_eq] at hstep
  obtain ⟨fields, rq, op, exo, ha, hrq, hop, hexo, hout⟩ := resolveStep_dict_ok hstep
  simp only [resolveReq] at hrq
  injection hrq with hrq
  subst hrq
  obtain ⟨hexoNil, _⟩ := resolveExtra_none_ok hexo
  subst hexoNil
  obtain ⟨pv, t1, ho1, hpv, hop⟩ := resolveOpt_head_default strNullNone .vnull rfl hop
  obtain ⟨recv, t2, ho2, hrecv, hop⟩ := resolveOpt_head_default strNullNone .vnull rfl hop
  obtain ⟨rdv, t3, ho3, hrdv, hop⟩ := resolveOpt_head_default (boolDefault true) (.vbool true) rfl hop
  obtain ⟨mov, t4, ho4, hmov, hop⟩ := resolveOpt_head_default (boolDefault false) (.vbool false) rfl hop
  obtain ⟨rtv, t5, ho5, hrtv, hop⟩ := resolveOpt_head_default dtNullNone .vnull rfl hop
  simp only [resolveOpt] at hop
  injection hop with hop
  subst hop
  subst ho5; subst ho4; subst ho3; subst ho2; subst ho1
  refine ⟨fields, pv, recv, rdv, mov, rtv, ha, ?_, ?_, ?_, ?_, ?_, ?_, ?_, ?_, ?_⟩
  · rw [hout]
    simp only [List.nil_append, List.append_nil]
  · rcases hpv with ⟨v, hdl, hres⟩ | ⟨hdl, hd⟩
    · exact resolve_string_ok hres
    · exact Or.inl hd
  · intro habs
    rcases hpv with ⟨v, hdl, hres⟩ | ⟨hdl, hd⟩
    · rw [habs] at hdl; cases hdl
    · exact hd
  · intro hnul
    rcases hpv with ⟨v, hdl, hres⟩ | ⟨hdl, hd⟩
    · rw [hnul] at hdl
      injection hdl with hdl
      subst hdl
      exact resolve_vnull_nullable hres
    · exact hd
  · intro s hs hni
    rcases hpv with ⟨v, hdl, hres⟩ | ⟨hdl, hd⟩
    · rw [hs] at hdl
      injection hdl with hdl
      subst hdl
      have h3 := Eq.trans (Eq.symm hres)
        (@resolve_strNullNone_plain f (resolve_ok_fuel_pos hres) ctx vis s hni)
      simp only [Except.ok.injEq] at h3
      exact h3
    · rw [hs] at hdl; cases hdl
  · intro habs
    rcases hrecv with ⟨v, hdl, hres⟩ | ⟨hdl, hd⟩
    · rw [habs] at hdl; cases hdl
    · exact hd
  · intro habs
    rcases hrdv with ⟨v, hdl, hres⟩ | ⟨hdl, hd⟩
    · rw [habs] at hdl; cases hdl
    · exact hd
  · intro habs
    rcases hmov with ⟨v, hdl, hres⟩ | ⟨hdl, hd⟩
    · rw [habs] at hdl; cases hdl
    · exact hd
  · intro habs
    rcases hrtv with ⟨v, hdl, hres⟩ | ⟨hdl, hd⟩
    · rw [habs] at hdl; cases hdl
    · exact hd

/-- C1: for a publication file whose metadata declares `due` and `released`
as datetimes and supplies `due: 2020-09-10 23:59:00` together with
`released: "7 days before ${this.metadata.due}"`, in either key order,
`read_publication_file` resolves `metadata.released` to
2020-09-03 23:59:00 — forward references resolve regardless of declaration
order. -/
theorem claim_C1_forward_reference_order_independent
    (md : List (String × Value))
    (h : md = [c1Due, c1Rel] ∨ md = [c1Rel, c1Due]) :
    ∃ out, read_publication_file "publication.yaml" (c1Raw md) (some c1Spec) none none = .ok out ∧
      vget2 out "metadata" "released" = some (dtv 2020 9 3 23 59) := by
  rcases h with h | h <;> subst h <;> exact ⟨_, rfl, rfl⟩

/-- Witness for C1 at the forward-reference key order. -/
theorem claim_C1_witness :
    ∃ out, read_publication_file "publication.yaml" (c1Raw [c1Rel, c1Due]) (some c1Spec) none none = .ok out ∧
      vget2 out "metadata" "released" = some (dtv 2020 9 3 23 59) :=
  claim_C1_forward_reference_order_independent [c1Rel, c1Due] (Or.inr rfl)

/-- C2: evaluating `read_collection_file` at a collection file with an
invalid `metadata_schema` shows the invalid-metadata-schema branch builds
`MalformedFileError(exc, path)`: the `.path` attribute receives the
exception object and the `.reason` attribute the file path — the two
arguments are swapped relative to the `MalformedFileError(path, reason)`
constructor, so this branch does not satisfy the claimed attribute layout. -/
theorem claim_C2_metadata_schema_branch_swaps_arguments :
    read_collection_file "collection.yaml" c2Raw none =
      .error ⟨.excObj "invalid schema: unknown schema field: foo", .pathObj "collection.yaml"⟩ :=
  rfl

/-- C3: discovery constructs each collection as
`Collection(**collection_dct, publications={})`, so the `ordered` field
keeps its declared default `True` even though the resolved spec says
`is_ordered: false`; consequently `_previous_publication` supplies the first
publication as `previous` to the second one, whose
`${previous.metadata.due}` reference then resolves — while with no previous
supplied (the behavior the claim requires for `is_ordered: false`) the same
file fails to resolve. -/
theorem claim_C3_previous_supplied_despite_unordered :
    ∃ dct, read_collection_file "collection.yaml" c3CollRaw none = .ok dct ∧
      vget2 dct "publication_spec" "is_ordered" = some (.vbool false) ∧
      (collectionFromDict dct).ordered = true ∧
      (∃ c, make_publications_chain none (collectionFromDict dct)
          [("01", c3Pub01), ("02", c3Pub02)] = .ok c ∧
        ∃ p2, dlookup "02" c.publications = some p2 ∧
          vget2 p2 "metadata" "due" = some (dtv 2021 1 6 23 0)) ∧
      ∃ e, read_publication_file "02" c3Pub02
          (some ((vget dct "publication_spec").getD .vnull)) none none = .error e := by
  exact ⟨_, rfl, rfl, rfl, ⟨_, rfl, _, rfl, rfl⟩, _, rfl⟩

/-- C4: whenever the resolved publication spec requires an artifact named
`n` and the publication file does not supply an artifact with that key,
`read_publication_file` fails with a `MalformedFileError`; no resolved
publication is returned. -/
theorem claim_C4_required_artifact_enforced
    (path : String) (specV raw rspec : Value) (vars prev : Option Value) (n : String)
    (hspec : dcResolve specV pubSpecSchema [] = .ok rspec)
    (hreq : n ∈ asStrList (getValD rspec "required_artifacts" (.vlist [])))
    (hmiss : rawArtifactHas raw n = false) :
    ∃ e, read_publication_file path raw (some specV) vars prev = .error e := by
  rcases except_split (read_publication_file path raw (some specV) vars prev)
      with ⟨e, he⟩ | ⟨out, hok⟩
  · exact ⟨e, he⟩
  · exfalso
    obtain ⟨rspec', schema, resolved, h1, h2, h3, _⟩ := read_pub_ok_elim hok
    simp only [Option.getD_some] at h1
    rw [hspec] at h1
    injection h1 with h1
    subst h1
    obtain ⟨msSch, hsch⟩ := make_pub_schema_ok h2
    subst hsch
    simp only [dcResolve] at h3
    obtain ⟨f1, hf1, hstep⟩ := resolve_ok_elim h3
    obtain ⟨kvs, rq, op, exo, hraw, hrq, hop, hexo, hout⟩ := resolveStep_dict_ok hstep
    obtain ⟨av, rv, hlook, hres, hrqeq⟩ := resolveReq_singleton hrq
    obtain ⟨f2, hf2, hstep2⟩ := resolve_ok_elim hres
    rw [make_artifacts_eq] at hstep2
    obtain ⟨arts, rq2, op2, exo2, hav, hrq2, hop2, hexo2, hout2⟩ := resolveStep_dict_ok hstep2
    have hmem := make_artifacts_required_mem rspec hreq
    rw [make_artifacts_eq] at hmem
    simp only [Schema.requiredKeys] at hmem
    obtain ⟨v, rv2, hl, hres2⟩ := resolveReq_ok_mem hrq2 hmem
    subst hraw
    subst hav
    simp only [rawArtifactHas, vget, hlook, hl, Option.isSome_some] at hmiss
    exact Bool.noConfusion hmiss

/-- Witness for C4 at the inputs of the repository's own test. -/
theorem claim_C4_witness :
    ∃ e, read_publication_file "publication.yaml" c4Raw (some c4Spec) none none = .error e :=
  claim_C4_required_artifact_enforced "publication.yaml" c4Spec c4Raw c4Rspec none none
    "solution" rfl (by decide) rfl

theorem dlookup_mem {k : String} {v : Value} {l : List (String × Value)}
    (h : dlookup k l = some v) : (k, v) ∈ l := by
  induction l with
  | nil => cases h
  | cons p rest ih =>
    obtain ⟨k', v'⟩ := p
    simp only [dlookup] at h
    split at h
    next heq =>
      injection h with h
      subst heq; subst h
      exact List.mem_cons_self _ _
    next hne => exact List.mem_cons_of_mem _ (ih h)

theorem map_fst_pairs (names : List String) (sch : Schema) :
    List.map Prod.fst (names.map (fun n => (n, sch))) = names := by
  induction names with
  | nil => rfl
  | cons n rest ih => simp only [List.map_cons, ih]

theorem vget_post_ne {k : String} (hk : ¬ k = "artifacts") (kvs : List (String × Value)) :
    vget (postArtifactPaths (.vdict kvs)) k = dlookup k kvs := by
  simp only [postArtifactPaths, vget]
  induction kvs with
  | nil => rfl
  | cons p rest ih =>
    obtain ⟨k', v'⟩ := p
    dsimp only [List.map_cons]
    by_cases h1 : k' = "artifacts"
    · subst h1
      rw [if_pos rfl]
      have h2 : ¬ ("artifacts" = k) := fun he => hk he.symm
      simp only [dlookup, if_neg h2, ih]
    · rw [if_neg h1]
      by_cases h2 : k' = k
      · subst h2
        simp [dlookup]
      · simp only [dlookup, if_neg h2, ih]

theorem vget_post_artifacts (kvs : List (String × Value)) :
    vget (postArtifactPaths (.vdict kvs)) "artifacts" =
      (dlookup "artifacts" kvs).map fixArtifacts := by
  simp only [postArtifactPaths, vget]
  induction kvs with
  | nil => rfl
  | cons p rest ih =>
    obtain ⟨k', v'⟩ := p
    dsimp only [List.map_cons]
    by_cases h1 : k' = "artifacts"
    · subst h1
      rw [if_pos rfl]
      simp [dlookup]
    · rw [if_neg h1]
      simp only [dlookup, if_neg h1, ih]

/-- Origin of every entry of the resolved artifacts mapping of a successful
`read_publication_file`: the raw file carries an artifacts mapping, the
output's artifacts mapping is the path-fixed image of a list of resolved
entries, and each such entry arises by resolving the identically keyed raw
entry against the artifact schema. -/
theorem read_pub_artifact_origin {path : String} {raw : Value}
    {spec vars prev : Option Value} {out : Value}
    (hok : read_publication_file path raw spec vars prev = .ok out)
    (hnd : rawArtifactKeysNodup raw) :
    ∃ (rawArts arts : List (String × Value)),
      vget raw "artifacts" = some (.vdict rawArts) ∧
      vget out "artifacts" =
        some (.vdict (arts.map (fun p => (p.1, fixOne p.1 p.2)))) ∧
      ∀ k a, (k, a) ∈ arts →
        ∃ v, dlookup k rawArts = some v ∧
          ∃ f ctx vis, resolve f ctx vis v artifactSchema = .ok a := by
  obtain ⟨rspec, schema, resolved, h1, h2, h3, hpost⟩ := read_pub_ok_elim hok
  obtain ⟨msSch, hsch⟩ := make_pub_schema_ok h2
  subst hsch
  simp only [dcResolve] at h3
  obtain ⟨f1, hf1, hstep⟩ := resolve_ok_elim h3
  obtain ⟨kvs, rq, op, exo, hraw, hrq, hop, hexo, hout⟩ := resolveStep_dict_ok hstep
  obtain ⟨av, rv, hlook, hres, hrqeq⟩ := resolveReq_singleton hrq
  obtain ⟨f2, hf2, hstep2⟩ := resolve_ok_elim hres
  rw [make_artifacts_eq] at hstep2
  obtain ⟨rawArts, rq2, op2, exo2, hav, hrq2, hop2, hexo2, hout2⟩ := resolveStep_dict_ok hstep2
  subst hav
  subst hraw
  have hnd' : (rawArts.map Prod.fst).Nodup := by
    simp only [rawArtifactKeysNodup, vget, hlook] at hnd
    exact hnd
  refine ⟨rawArts, rq2 ++ op2 ++ exo2, ?_, ?_, ?_⟩
  · simp only [vget, hlook]
  · subst hpost
    subst hout
    subst hrqeq
    rw [vget_post_artifacts]
    simp only [dlookup_append, dlookup, if_pos rfl]
    subst hout2
    simp [fixArtifacts]
  · intro k a ha
    rcases List.mem_append.mp ha with h12 | hx
    · rcases List.mem_append.mp h12 with hr | ho
      · obtain ⟨sch, v, hschmem, hdl, hresv⟩ := resolveReq_ok_entries hrq2 hr
        obtain ⟨n0, hn0, heqp⟩ := List.mem_map.mp hschmem
        injection heqp with he1 he2
        subst he2
        exact ⟨v, hdl, f2, _, _, hresv⟩
      · obtain ⟨sch, hschmem, hor⟩ := resolveOpt_ok_entries hop2 ho
        obtain ⟨n0, hn0, heqp⟩ := List.mem_map.mp hschmem
        injection heqp with he1 he2
        subst he2
        rcases hor with ⟨v, hdl, hresv⟩ | ⟨hdl, hdef⟩
        · exact ⟨v, hdl, f2, _, _, hresv⟩
        · rw [artifactSchema_eq] at hdef
          simp [Schema.defaultVal] at hdef
    · by_cases hb : (match getValD rspec "allow_unspecified_artifacts" (.vbool false) with
                     | .vbool b => b
                     | _ => false) = true
      · rw [if_pos hb] at hexo2
        obtain ⟨v, hvmem, hresv⟩ := resolveExtra_some_entries hexo2 hx
        exact ⟨v, dlookup_of_mem_nodup hnd' hvmem, f2, _, _, hresv⟩
      · rw [if_neg hb] at hexo2
        obtain ⟨hnil, h5⟩ := resolveExtra_none_ok hexo2
        subst hnil
        cases hx

/-- Field-level account of every entry of the resolved artifacts mapping of
a successful `read_publication_file`: the entry is the path-fixed image of a
five-field resolved artifact whose fields mirror the raw entry's fields, and
every omitted field took its schema default. -/
theorem read_pub_artifact_fields {path : String} {raw : Value}
    {spec vars prev : Option Value} {out : Value}
    (hok : read_publication_file path raw spec vars prev = .ok out)
    (hnd : rawArtifactKeysNodup raw) :
    ∀ arts, vget out "artifacts" = some (.vdict arts) →
      ∀ k a, (k, a) ∈ arts →
        ∃ fields pv recv rdv mov rtv,
          rawArtifactField raw k "path" = dlookup "path" fields ∧
          rawArtifactField raw k "recipe" = dlookup "recipe" fields ∧
          rawArtifactField raw k "ready" = dlookup "ready" fields ∧
          rawArtifactField raw k "missing_ok" = dlookup "missing_ok" fields ∧
          rawArtifactField raw k "release_time" = dlookup "release_time" fields ∧
          a = fixOne k (.vdict [("path", pv), ("recipe", recv), ("ready", rdv),
                                ("missing_ok", mov), ("release_time", rtv)]) ∧
          (pv = .vnull ∨ ∃ s, pv = .vstr s) ∧
          (dlookup "path" fields = none → pv = .vnull) ∧
          (dlookup "path" fields = some .vnull → pv = .vnull) ∧
          (∀ s, dlookup "path" fields = some (.vstr s) → noInterpStr s = true → pv = .vstr s) ∧
          (dlookup "recipe" fields = none → recv = .vnull) ∧
          (dlookup "ready" fields = none → rdv = .vbool true) ∧
          (dlookup "missing_ok" fields = none → mov = .vbool false) ∧
          (dlookup "release_time" fields = none → rtv = .vnull) := by
  intro arts harts k a ha
  obtain ⟨rawArts, arts0, hrawA, houtA, horigin⟩ := read_pub_artifact_origin hok hnd
  have harts' := harts.symm.trans houtA
  simp only [Option.some.injEq, Value.vdict.injEq] at harts'
  subst harts'
  obtain ⟨⟨k0, a0⟩, hmem0, heq0⟩ := List.mem_map.mp ha
  injection heq0 with hk0 ha0
  subst hk0
  obtain ⟨v, hdl, f, ctx, vis, hresv⟩ := horigin k0 a0 hmem0
  obtain ⟨fields, pv, recv, rdv, mov, rtv, hveq, ha0eq, hshape, hpabs, hpnul, hpstr,
    hrec, hrdy, hmo, hrt⟩ := resolve_artifact_ok hresv
  subst hveq
  refine ⟨fields, pv, recv, rdv, mov, rtv, ?_, ?_, ?_, ?_, ?_, ?_,
    hshape, hpabs, hpnul, hpstr, hrec, hrdy, hmo, hrt⟩
  · simp only [rawArtifactField, hrawA, hdl]
  · simp only [rawArtifactField, hrawA, hdl]
  · simp only [rawArtifactField, hrawA, hdl]
  · simp only [rawArtifactField, hrawA, hdl]
  · simp only [rawArtifactField, hrawA, hdl]
  · rw [← ha0, ha0eq]

/-- C6: with `allow_unspecified_artifacts` false, a publication file whose
artifacts mapping contains a key declared neither required nor optional
always fails with a `MalformedFileError`; on the repository's own test
input the failure is precisely the unknown-key error for `woo`, and the
same file resolves successfully (with `woo` present in the result) once
`allow_unspecified_artifacts` is true. -/
theorem claim_C6_unknown_artifact_rejected
    (path : String) (specV raw rspec : Value) (vars prev : Option Value) (w : String)
    (hspec : dcResolve specV pubSpecSchema [] = .ok rspec)
    (hallow : getValD rspec "allow_unspecified_artifacts" (.vbool false) = .vbool false)
    (hwreq : w ∉ asStrList (getValD rspec "required_artifacts" (.vlist [])))
    (hwopt : w ∉ asStrList (getValD rspec "optional_artifacts" (.vlist [])))
    (hhas : rawArtifactHas raw w = true) :
    (∃ e, read_publication_file path raw (some specV) vars prev = .error e) ∧
    read_publication_file "publication.yaml" c6Raw (some c6SpecNoAllow) none none =
      .error ⟨.pathObj "publication.yaml", .strObj (errStr (.unknownKey "woo"))⟩ ∧
    (∃ out, read_publication_file "publication.yaml" c6Raw (some c6SpecAllow) none none = .ok out ∧
      (vget2 out "artifacts" "woo").isSome = true) := by
  refine ⟨?_, rfl, ⟨_, rfl, rfl⟩⟩
  rcases except_split (read_publication_file path raw (some specV) vars prev)
      with ⟨e, he⟩ | ⟨out, hok⟩
  · exact ⟨e, he⟩
  · exfalso
    obtain ⟨rspec', schema, resolved, h1, h2, h3, _⟩ := read_pub_ok_elim hok
    simp only [Option.getD_some] at h1
    rw [hspec] at h1
    injection h1 with h1
    subst h1
    obtain ⟨msSch, hsch⟩ := make_pub_schema_ok h2
    subst hsch
    simp only [dcResolve] at h3
    obtain ⟨f1, hf1, hstep⟩ := resolve_ok_elim h3
    obtain ⟨kvs, rq, op, exo, hraw, hrq, hop, hexo, hout⟩ := resolveStep_dict_ok hstep
    obtain ⟨av, rv, hlook, hres, hrqeq⟩ := resolveReq_singleton hrq
    obtain ⟨f2, hf2, hstep2⟩ := resolve_ok_elim hres
    rw [make_artifacts_eq] at hstep2
    rw [hallow] at hstep2
    simp only [if_neg (Bool.false_ne_true)] at hstep2
    obtain ⟨arts, rq2, op2, exo2, hav, hrq2, hop2, hexo2, hout2⟩ := resolveStep_dict_ok hstep2
    obtain ⟨hexoNil, hcov⟩ := resolveExtra_none_ok hexo2
    subst hraw
    subst hav
    simp only [rawArtifactHas, vget, hlook] at hhas
    rcases hwl : dlookup w arts with _ | wv
    · rw [hwl] at hhas
      exact Bool.noConfusion hhas
    · have hmemw := dlookup_mem hwl
      have := hcov (w, wv) hmemw
      rw [map_fst_pairs, map_fst_pairs] at this
      rcases List.mem_append.mp this with hw | hw
      · exact hwreq hw
      · exact hwopt hw

/-- Witness for C6 at the inputs of the repository's own tests. -/
theorem claim_C6_witness :
    (∃ e, read_publication_file "publication.yaml" c6Raw (some c6SpecNoAllow) none none = .error e) ∧
    read_publication_file "publication.yaml" c6Raw (some c6SpecNoAllow) none none =
      .error ⟨.pathObj "publication.yaml", .strObj (errStr (.unknownKey "woo"))⟩ ∧
    (∃ out, read_publication_file "publication.yaml" c6Raw (some c6SpecAllow) none none = .ok out ∧
      (vget2 out "artifacts" "woo").isSome = true) :=
  claim_C6_unknown_artifact_rejected "publication.yaml" c6SpecNoAllow c6Raw c6Rspec none none
    "woo" rfl rfl (by decide) (by decide) rfl

/-- C7: for every publication file that reads successfully, an explicitly
supplied boolean `ready` value is returned exactly (never overridden by the
default), and an omitted `ready` key resolves to `True`. -/
theorem claim_C7_ready_explicit_or_default
    (path : String) (rawKvs : List (String × Value)) (spec vars prev : Option Value)
    (out : Value)
    (hok : read_publication_file path (.vdict rawKvs) spec vars prev = .ok out) :
    (∀ b, dlookup "ready" rawKvs = some (.vbool b) → vget out "ready" = some (.vbool b)) ∧
    (dlookup "ready" rawKvs = none → vget out "ready" = some (.vbool true)) := by
  obtain ⟨rspec, schema, resolved, h1, h2, h3, hpost⟩ := read_pub_ok_elim hok
  obtain ⟨msSch, hsch⟩ := make_pub_schema_ok h2
  subst hsch
  simp only [dcResolve] at h3
  obtain ⟨f1, hf1, hstep⟩ := resolve_ok_elim h3
  obtain ⟨kvs, rq, op, exo, hraw, hrq, hop, hexo, hout⟩ := resolveStep_dict_ok hstep
  injection hraw with hraw
  subst hraw
  obtain ⟨av, rv, hlook, hres, hrqeq⟩ := resolveReq_singleton hrq
  obtain ⟨rv0, tail, hopeq, hrv0, htail⟩ :=
    resolveOpt_head_default (boolDefault true) (.vbool true) rfl hop
  subst hout
  subst hpost
  have hready : vget (postArtifactPaths (.vdict (rq ++ op ++ exo))) "ready" = some rv0 := by
    rw [vget_post_ne (by decide)]
    rw [dlookup_append]
    rw [hrqeq]
    simp only [dlookup]
    rw [if_neg (by decide)]
    rw [hopeq]
    simp [dlookup_append, dlookup]
  constructor
  · intro b hb
    rcases hrv0 with ⟨v, hdl, hres0⟩ | ⟨hdl, _⟩
    · rw [hb] at hdl
      injection hdl with hdl
      subst hdl
      have := resolve_bool_value hres0
      subst this
      exact hready
    · rw [hb] at hdl
      cases hdl
  · intro hb
    rcases hrv0 with ⟨v, hdl, hres0⟩ | ⟨hdl, hrv⟩
    · rw [hb] at hdl
      cases hdl
    · subst hrv
      exact hready

/-- Witness for C7 at the explicit `ready: false` test file. -/
theorem claim_C7_witness :
    (∀ b, dlookup "ready" c7Kvs = some (.vbool b) →
      vget c7Out "ready" = some (.vbool b)) ∧
    (dlookup "ready" c7Kvs = none → vget c7Out "ready" = some (.vbool true)) :=
  claim_C7_ready_explicit_or_default "publication.yaml" c7Kvs none none none c7Out rfl

/-- C8: a relative date expression with a negative integer literal,
`release_time: "-1 days after ${this.metadata.due}"`, is rejected with a
validation error surfaced as `MalformedFileError`, whatever datetime the
referenced `due` field holds — it is never evaluated as its positive
counterpart. -/
theorem claim_C8_negative_relative_date_rejected (d : PDateTime) :
    read_publication_file "publication.yaml" (c8Raw d) none none none =
      .error ⟨.pathObj "publication.yaml",
              .strObj "validation error: relative date offset must be non-negative"⟩ :=
  rfl

/-- Resolution of a required-artifacts-only collection file against the
collection schema, at any fuel at least the document's nesting depth. -/
theorem resolve_c9 (f : Nat) (ctx : RCtx) (names : List String)
    (h : ∀ n ∈ names, noInterpStr n = true) :
    resolve (f + 4) ctx [] (c9Raw names) collectionFileSchema = .ok (c9Out names) := by
  have e4 : f + 4 = (f + 3) + 1 := rfl
  have e3 : f + 3 = (f + 2) + 1 := rfl
  have e2 : f + 2 = (f + 1) + 1 := rfl
  rw [e4, resolve_succ]
  simp only [c9Raw, c9Spec, collectionFileSchema, resolveStep, resolveReq, resolveOpt,
    resolveExtra, dlookup, Schema.defaultVal, Option.getD, List.map_cons, List.map_nil,
    List.cons_append, List.nil_append, List.append_nil, List.mem_cons, List.mem_singleton,
    List.not_mem_nil, ite_true, ite_false, or_false, or_true, false_or, true_or,
    String.reduceEq, boolDefault]
  rw [e3, resolve_succ]
  simp only [pubSpecSchema, resolveStep, resolveReq, resolveOpt, resolveExtra, dlookup,
    Schema.defaultVal, Option.getD, List.map_cons, List.map_nil, List.cons_append,
    List.nil_append, List.append_nil, List.mem_cons, List.mem_singleton,
    List.not_mem_nil, ite_true, ite_false, or_false, or_true, false_or, true_or,
    String.reduceEq, boolDefault]
  rw [e2, resolve_succ]
  simp only [resolveStep, Option.getD]
  rw [@mapExcept_strings (f + 1) (Nat.succ_ne_zero f) ctx [] names h]
  simp only [c9Out, c9RSpec, List.cons_append, List.nil_append, List.append_nil]

/-- C9: a collection file whose publication spec supplies only
`required_artifacts` (as plain strings) reads successfully, and every
omitted optional field of the resolved spec equals its documented default:
`optional_artifacts` is the empty list, `metadata_schema` is null,
`allow_unspecified_artifacts` is false, and `is_ordered` is false. -/
theorem claim_C9_collection_spec_defaults (path : String) (names : List String)
    (vars : Option Value) (h : ∀ n ∈ names, noInterpStr n = true) :
    read_collection_file path (c9Raw names) vars = .ok (c9Out names) ∧
    vget2 (c9Out names) "publication_spec" "required_artifacts" =
      some (.vlist (names.map .vstr)) ∧
    vget2 (c9Out names) "publication_spec" "optional_artifacts" = some (.vlist []) ∧
    vget2 (c9Out names) "publication_spec" "metadata_schema" = some .vnull ∧
    vget2 (c9Out names) "publication_spec" "allow_unspecified_artifacts" =
      some (.vbool false) ∧
    vget2 (c9Out names) "publication_spec" "is_ordered" = some (.vbool false) := by
  refine ⟨?_, rfl, rfl, rfl, rfl, rfl⟩
  unfold read_collection_file dcResolve
  have e : engineFuel = 96 + 4 := rfl
  rw [e, resolve_c9 96 _ names h]
  rfl

/-- Witness for C9 at a two-artifact required list. -/
theorem claim_C9_witness :
    read_collection_file "collection.yaml" (c9Raw ["foo", "bar"]) none =
      .ok (c9Out ["foo", "bar"]) ∧
    vget2 (c9Out ["foo", "bar"]) "publication_spec" "required_artifacts" =
      some (.vlist [.vstr "foo", .vstr "bar"]) ∧
    vget2 (c9Out ["foo", "bar"]) "publication_spec" "optional_artifacts" =
      some (.vlist []) ∧
    vget2 (c9Out ["foo", "bar"]) "publication_spec" "metadata_schema" = some .vnull ∧
    vget2 (c9Out ["foo", "bar"]) "publication_spec" "allow_unspecified_artifacts" =
      some (.vbool false) ∧
    vget2 (c9Out ["foo", "bar"]) "publication_spec" "is_ordered" = some (.vbool false) :=
  claim_C9_collection_spec_defaults "collection.yaml" ["foo", "bar"] none (by decide)

/-- C5: in every successfully read publication file (with distinct artifact
keys, as YAML guarantees), an artifact whose `path` was not supplied or was
supplied as null resolves its `path` to the artifact's own key, and an
artifact whose `path` was supplied as a plain string keeps exactly that
string. -/
theorem claim_C5_artifact_path_default
    (path : String) (raw : Value) (spec vars prev : Option Value) (out : Value)
    (hok : read_publication_file path raw spec vars prev = .ok out)
    (hnd : rawArtifactKeysNodup raw) :
    ∀ arts, vget out "artifacts" = some (.vdict arts) →
      ∀ k a, (k, a) ∈ arts →
        ((rawArtifactField raw k "path" = none ∨
          rawArtifactField raw k "path" = some .vnull) →
            vget a "path" = some (.vstr k)) ∧
        (∀ s, rawArtifactField raw k "path" = some (.vstr s) → noInterpStr s = true →
            vget a "path" = some (.vstr s)) := by
  intro arts harts k a ha
  obtain ⟨fields, pv, recv, rdv, mov, rtv, hfp, _, _, _, _, haEq, hshape, hpabs, hpnul,
    hpstr, _, _, _, _⟩ := read_pub_artifact_fields hok hnd arts harts k a ha
  constructor
  · intro hcase
    have hpv : pv = .vnull := by
      rcases hcase with hc | hc
      · rw [hfp] at hc; exact hpabs hc
      · rw [hfp] at hc; exact hpnul hc
    subst hpv
    rw [haEq]
    simp [fixOne, dlookup, dset, vget]
  · intro s hs hni
    rw [hfp] at hs
    have hpv := hpstr s hs hni
    subst hpv
    rw [haEq]
    simp [fixOne, dlookup, vget]

/-- Witness for C5 at a file supplying one artifact without `path` and one
with an explicit `path`. -/
theorem claim_C5_witness :
    vget c5HwRes "path" = some (.vstr "homework.pdf") ∧
    vget c5SolRes "path" = some (.vstr "sol.pdf") := by
  have h := claim_C5_artifact_path_default "publication.yaml" c5Raw none none none c5Out
    rfl (by simp [rawArtifactKeysNodup, c5Raw, vget, dlookup]) c5Arts rfl
  exact ⟨(h "homework.pdf" c5HwRes (List.mem_cons_self _ _)).1 (Or.inl rfl),
         (h "solution" c5SolRes (List.mem_cons_of_mem _ (List.mem_cons_self _ _))).2
           "sol.pdf" rfl rfl⟩

/-- C10: every artifact of a successfully read publication file (with
distinct artifact keys, as YAML guarantees) carries exactly the five fields
`path`, `recipe`, `ready`, `missing_ok` and `release_time`; its `path` is a
string (never null), defaulting to the artifact's key when not supplied; and
an omitted `ready` defaults to true, an omitted `missing_ok` to false, and
omitted `recipe` and `release_time` to null. -/
theorem claim_C10_artifact_invariants
    (path : String) (raw : Value) (spec vars prev : Option Value) (out : Value)
    (hok : read_publication_file path raw spec vars prev = .ok out)
    (hnd : rawArtifactKeysNodup raw) :
    ∀ arts, vget out "artifacts" = some (.vdict arts) →
      ∀ k a, (k, a) ∈ arts →
        ∃ fields, a = .vdict fields ∧
          dkeys fields = ["path", "recipe", "ready", "missing_ok", "release_time"] ∧
          (∃ s, dlookup "path" fields = some (.vstr s)) ∧
          (rawArtifactField raw k "path" = none →
            dlookup "path" fields = some (.vstr k)) ∧
          (rawArtifactField raw k "recipe" = none →
            dlookup "recipe" fields = some .vnull) ∧
          (rawArtifactField raw k "ready" = none →
            dlookup "ready" fields = some (.vbool true)) ∧
          (rawArtifactField raw k "missing_ok" = none →
            dlookup "missing_ok" fields = some (.vbool false)) ∧
          (rawArtifactField raw k "release_time" = none →
            dlookup "release_time" fields = some .vnull) := by
  intro arts harts k a ha
  obtain ⟨fields, pv, recv, rdv, mov, rtv, hfp, hfrec, hfrdy, hfmo, hfrt, haEq, hshape,
    hpabs, hpnul, hpstr, hrec, hrdy, hmo, hrt⟩ :=
    read_pub_artifact_fields hok hnd arts harts k a ha
  rcases hshape with hpv | ⟨s, hpv⟩ <;> subst hpv
  · refine ⟨[("path", .vstr k), ("recipe", recv), ("ready", rdv),
             ("missing_ok", mov), ("release_time", rtv)], ?_, rfl, ⟨k, rfl⟩,
      fun _ => rfl, ?_, ?_, ?_, ?_⟩
    · rw [haEq]
      simp [fixOne, dlookup, dset]
    · intro hc
      rw [hfrec] at hc
      rw [hrec hc]
      rfl
    · intro hc
      rw [hfrdy] at hc
      rw [hrdy hc]
      rfl
    · intro hc
      rw [hfmo] at hc
      rw [hmo hc]
      rfl
    · intro hc
      rw [hfrt] at hc
      rw [hrt hc]
      rfl
  · refine ⟨[("path", .vstr s), ("recipe", recv), ("ready", rdv),
             ("missing_ok", mov), ("release_time", rtv)], ?_, rfl, ⟨s, rfl⟩,
      ?_, ?_, ?_, ?_, ?_⟩
    · rw [haEq]
      simp [fixOne, dlookup]
    · intro hc
      rw [hfp] at hc
      exact Value.noConfusion (hpabs hc)
    · intro hc
      rw [hfrec] at hc
      rw [hrec hc]
      rfl
    · intro hc
      rw [hfrdy] at hc
      rw [hrdy hc]
      rfl
    · intro hc
      rw [hfmo] at hc
      rw [hmo hc]
      rfl
    · intro hc
      rw [hfrt] at hc
      rw [hrt hc]
      rfl

/-- Witness for C10 at a file whose only artifact supplies no field. -/
theorem claim_C10_witness :
    ∃ fields, c10Res = .vdict fields ∧
      dkeys fields = ["path", "recipe", "ready", "missing_ok", "release_time"] ∧
      (∃ s, dlookup "path" fields = some (.vstr s)) ∧
      (rawArtifactField c10Raw "hw" "path" = none →
        dlookup "path" fields = some (.vstr "hw")) ∧
      (rawArtifactField c10Raw "hw" "recipe" = none →
        dlookup "recipe" fields = some .vnull) ∧
      (rawArtifactField c10Raw "hw" "ready" = none →
        dlookup "ready" fields = some (.vbool true)) ∧
      (rawArtifactField c10Raw "hw" "missing_ok" = none →
        dlookup "missing_ok" fields = some (.vbool false)) ∧
      (rawArtifactField c10Raw "hw" "release_time" = none →
        dlookup "release_time" fields = some .vnull) :=
  claim_C10_artifact_invariants "publication.yaml" c10Raw none none none c10Out rfl
    (by simp [rawArtifactKeysNodup, c10Raw, vget, dlookup]) c10Arts rfl "hw" c10Res
    (List.mem_cons_self _ _)

/-- Witness for C8 at the due datetime of the repository's own test. -/
theorem claim_C8_witness :
    read_publication_file "publication.yaml" (c8Raw ⟨⟨2020, 9, 4⟩, 23, 59, 0⟩) none none none =
      .error ⟨.pathObj "publication.yaml",
              .strObj "validation error: relative date offset must be non-negative"⟩ :=
  claim_C8_negative_relative_date_rejected ⟨⟨2020, 9, 4⟩, 23, 59, 0⟩

end Automata
